import Mathlib

/-!
# RustSim: shallow embedding and verification

A shallow embedding of the RustSim discrete-event simulation kernel
(`src/keys.rs`, `src/scheduler.rs`, `src/state.rs`, `src/container.rs`,
`src/simulation.rs`, `examples/simple_model.rs`) together with proofs about it.

Modelling conventions:
* `std::time::Duration` is modelled as `Nat` (a number of seconds; all the
  claims only ever add and compare durations, which `Nat` reflects exactly).
* The `BinaryHeap<EventEntry>` is modelled as the list of its entries in
  insertion order; `pop` removes the leftmost entry of minimal time.  The
  source orders `EventEntry` by time only (`Reverse<Duration>` under a
  max-heap, i.e. a min-heap on time), so the heap's choice among equal-time
  entries is an unspecified implementation artifact; the model fixes one
  admissible choice.
* Rust panics (`panic!`, `expect`, `unwrap`) abort the process; they are
  modelled as `Except.error` values carrying a `SimError` describing which
  panic fired.  A generator's own internal panic is `SimError.genPanic`.
* Rust generators (resumable computations) are modelled as explicit state
  machines: a container is generic over a generator-state type `G`, and the
  orchestrator takes a `resume` function `G → State V → Except String
  (GenStep G V L)` returning the yielded `Action` (or completion), the next
  generator state, the updated shared store and the printed log lines.  The
  resume-argument type `R` of the source is `()` in every claim, so it is
  dropped.
* The heterogeneous `Box<dyn Any>` store is modelled as a store of values of
  a fixed type parameter `V` (instantiated with a sum type for the demo
  model); a failed downcast appears as a generator panic.
-/

namespace RustSim

/-- `keys.rs`: opaque numeric task handle. -/
structure Key where
  id : Nat
deriving DecidableEq, Repr

/-- `Key::dummy` (reserved sentinel). `usize::MAX` has no Nat counterpart, so
the model keeps it abstract as an arbitrarily large id; no claim depends on it. -/
def Key.dummy : Key := ⟨2 ^ 64 - 1⟩

/-- `container.rs`: per-task activity flag. -/
inductive EntityState where
  | Passive
  | Active
deriving DecidableEq, Repr

/-- `lib.rs`: the action a task yields at each suspension. -/
inductive Action where
  | Hold (duration : Nat)
  | Passivate
  | ActivateOne (key : Key)
  | ActivateMany (keys : List Key)
  | Cancel (key : Key)
deriving DecidableEq, Repr

/-- `scheduler.rs`: a pending `(time, handle)` entry. -/
structure EventEntry where
  time : Nat
  entity_key : Key
deriving DecidableEq, Repr

/-- `scheduler.rs`: the future event list and the simulated clock. -/
structure Scheduler where
  events : List EventEntry
  clock : Nat
deriving DecidableEq, Repr

/-- `Scheduler::default()`: empty queue, clock zero. -/
def Scheduler.init : Scheduler := ⟨[], 0⟩

/-- `Scheduler::schedule`: enqueue at `clock + time` unless the handle is
already pending (then the call is silently ignored). -/
def Scheduler.schedule (s : Scheduler) (time : Nat) (entity_key : Key) : Scheduler :=
  if ∃ ev ∈ s.events, ev.entity_key = entity_key then s
  else { s with events := s.events ++ [⟨s.clock + time, entity_key⟩] }

/-- `Scheduler::schedule_now`: shorthand for `schedule(0, key)`. -/
def Scheduler.schedule_now (s : Scheduler) (entity : Key) : Scheduler :=
  s.schedule 0 entity

/-- Remove the leftmost entry of minimal time from the list; models
`BinaryHeap::pop` on entries ordered by time only. -/
def popEntry : List EventEntry → Option (EventEntry × List EventEntry)
  | [] => none
  | e :: rest =>
    match popEntry rest with
    | none => some (e, rest)
    | some (m, rest') => if e.time ≤ m.time then some (e, rest) else some (m, e :: rest')

/-- `Scheduler::pop`: remove and return the earliest entry, advancing the
clock to that entry's time. -/
def Scheduler.pop (s : Scheduler) : Option (EventEntry × Scheduler) :=
  match popEntry s.events with
  | none => none
  | some (e, rest) => some (e, { events := rest, clock := e.time })

/-- `Scheduler::remove`: drop every pending entry of `key`; returns whether
one existed. -/
def Scheduler.remove (s : Scheduler) (key : Key) : Bool × Scheduler :=
  if ∃ ev ∈ s.events, ev.entity_key = key then
    (true, { s with events := s.events.filter (fun ev => ev.entity_key ≠ key) })
  else (false, s)

/-- `state.rs`: handle into the shared store.  The source tags the handle with
a phantom value type; the model's store is homogeneous in `V`, so the tag is
dropped. -/
structure StateKey where
  id : Nat
deriving DecidableEq, Repr

/-- `state.rs`: the shared store, a vector of optional slots. -/
structure State (V : Type) where
  store : List (Option V)

/-- `State::insert`: append a new slot, return the fresh handle. -/
def State.insert {V : Type} (s : State V) (value : V) : StateKey × State V :=
  (⟨s.store.length⟩, ⟨s.store ++ [some value]⟩)

/-- `State::remove`: take the value out of the slot (leaving it empty);
`none` if the slot is already empty or out of range. -/
def State.remove {V : Type} (s : State V) (key : StateKey) : Option V × State V :=
  match s.store[key.id]? with
  | some (some v) => (some v, ⟨s.store.set key.id none⟩)
  | _ => (none, s)

/-- `State::get`: non-removing access; `none` if empty. -/
def State.get {V : Type} (s : State V) (key : StateKey) : Option V :=
  (s.store[key.id]?).bind id

/-- Writing through `State::get_mut(key).unwrap()`: overwrite an occupied
slot.  Callers check occupancy first (the source's `unwrap`). -/
def State.setValue {V : Type} (s : State V) (key : StateKey) (v : V) : State V :=
  ⟨s.store.set key.id (some v)⟩

/-- `State::len`. -/
def State.len {V : Type} (s : State V) : Nat := s.store.length

/-- `container.rs`: the task registry, generic over the generator-state
type `G`. -/
structure Container (G : Type) where
  inner : List (Option (G × EntityState))

/-- `Container::add_generator`: append a slot holding the generator in state
`Active`, return its key. -/
def Container.add_generator {G : Type} (c : Container G) (gen : G) :
    Key × Container G :=
  (⟨c.inner.length⟩, ⟨c.inner ++ [some (gen, EntityState.Active)]⟩)

/-- `Container::remove`: take the slot's contents (leaving it permanently
empty). -/
def Container.remove {G : Type} (c : Container G) (key : Key) :
    Option (G × EntityState) × Container G :=
  match c.inner[key.id]? with
  | some (some v) => (some v, ⟨c.inner.set key.id none⟩)
  | _ => (none, c)

/-- `Container::get_state`. -/
def Container.get_state {G : Type} (c : Container G) (key : Key) : Option EntityState :=
  ((c.inner[key.id]?).bind id).map (fun p => p.2)

/-- Writing through `Container::get_state_mut(key).unwrap()`: set the flag of
an occupied slot, keeping the generator. -/
def Container.set_state {G : Type} (c : Container G) (key : Key) (st : EntityState) :
    Container G :=
  match c.inner[key.id]? with
  | some (some (g, _)) => ⟨c.inner.set key.id (some (g, st))⟩
  | _ => c

/-- The in-place mutation of a resumed generator (`Pin::new(gen).resume`):
store the generator's next state back into its slot, keeping the flag. -/
def Container.setGen {G : Type} (c : Container G) (key : Key) (g : G) : Container G :=
  match c.inner[key.id]? with
  | some (some (_, st)) => ⟨c.inner.set key.id (some (g, st))⟩
  | _ => c

/-- `GeneratorState` of a single resumption: the yielded action (with the next
generator state) or completion; both carry the updated shared store and the
lines printed during the segment. -/
inductive GenStep (G V L : Type) where
  | Yielded (action : Action) (gen : G) (state : State V) (log : List L)
  | Complete (state : State V) (log : List L)

/-- `Container::step_with`: resume the task behind `key`.  The source panics
(`expect`) when the slot is empty or out of range; a panic inside the
generator itself is `genPanic`. -/
inductive SimError where
  | removedEntity (key : Key)
  | noState (key : Key)
  | passiveHold (key : Key)
  | passivePassivate (key : Key)
  | passiveActivate (key : Key)
  | passiveCancel (key : Key) (other : Key)
  | activateTargetMissing (key other : Key)
  | activateAlreadyActive (key other : Key)
  | cancelTargetMissing (key other : Key)
  | cancelTargetPassive (key other : Key)
  | cancelNotScheduled (key other : Key)
  | genPanic (msg : String)
deriving DecidableEq, Repr

/-- The four panics guarded by `if let EntityState::Passive = *entity_state`
in `Simulation::step_with` (a Passive task yielding Hold, Passivate,
ActivateOne/ActivateMany, or Cancel). -/
def SimError.isPassiveViolation : SimError → Bool
  | .passiveHold _ => true
  | .passivePassivate _ => true
  | .passiveActivate _ => true
  | .passiveCancel _ _ => true
  | _ => false

/-- `Container::step_with` (container.rs): look the generator up (panicking if
the slot was emptied or never filled) and resume it. -/
def Container.step_with {G V L : Type} (c : Container G)
    (resume : G → State V → Except String (GenStep G V L)) (key : Key)
    (st : State V) : Except SimError (GenStep G V L) :=
  match c.inner[key.id]? with
  | some (some (g, _)) =>
    match resume g st with
    | .ok r => .ok r
    | .error m => .error (.genPanic m)
  | _ => .error (.removedEntity key)

/-- `simulation.rs`: the orchestrator's state. -/
structure Simulation (G V : Type) where
  scheduler : Scheduler
  entities : Container G
  state : State V

/-- `Simulation::default()`. -/
def Simulation.default (G V : Type) : Simulation G V :=
  ⟨Scheduler.init, ⟨[]⟩, ⟨[]⟩⟩

/-- `simulation.rs`: result of one `step`. -/
inductive ShouldContinue where
  | Advance
  | Break
deriving DecidableEq, Repr

/-- `Simulation::schedule`. -/
def Simulation.schedule {G V : Type} (sim : Simulation G V) (time : Nat) (entity_key : Key) :
    Simulation G V :=
  { sim with scheduler := sim.scheduler.schedule time entity_key }

/-- `Simulation::schedule_now`. -/
def Simulation.schedule_now {G V : Type} (sim : Simulation G V) (entity_key : Key) :
    Simulation G V :=
  { sim with scheduler := sim.scheduler.schedule_now entity_key }

/-- `Simulation::add_generator`. -/
def Simulation.add_generator {G V : Type} (sim : Simulation G V) (gen : G) :
    Key × Simulation G V :=
  let r := sim.entities.add_generator gen
  (r.1, { sim with entities := r.2 })

/-- The loop body of the `ActivateMany` arm of `Simulation::step_with`:
for each target in order, panic if it is missing or already Active, else mark
it Active and schedule it now. -/
def Simulation.activateLoop {G V : Type} (sim : Simulation G V) (key : Key) :
    List Key → Except SimError (Simulation G V)
  | [] => .ok sim
  | other_key :: rest =>
    match sim.entities.get_state other_key with
    | none => .error (.activateTargetMissing key other_key)
    | some EntityState.Active => .error (.activateAlreadyActive key other_key)
    | some EntityState.Passive =>
      let sim := { sim with entities := sim.entities.set_state other_key EntityState.Active }
      Simulation.activateLoop
        { sim with scheduler := sim.scheduler.schedule_now other_key } key rest

/-- The `GeneratorState::Yielded` arm of `Simulation::step_with`
(simulation.rs lines 91–197): read the popped task's activity flag
(`get_state_mut(key).unwrap()`) and apply the yielded action. -/
def Simulation.handleAction {G V : Type} (sim : Simulation G V) (key : Key) :
    Action → Except SimError (Simulation G V)
  | .Hold duration =>
    match sim.entities.get_state key with
    | none => .error (.noState key)
    | some entity_state =>
      if entity_state = EntityState.Passive then .error (.passiveHold key)
      else .ok { sim with scheduler := sim.scheduler.schedule duration key }
  | .Passivate =>
    match sim.entities.get_state key with
    | none => .error (.noState key)
    | some EntityState.Active =>
      .ok { sim with entities := sim.entities.set_state key EntityState.Passive }
    | some EntityState.Passive => .error (.passivePassivate key)
  | .ActivateOne other_key =>
    match sim.entities.get_state key with
    | none => .error (.noState key)
    | some entity_state =>
      if entity_state = EntityState.Passive then .error (.passiveActivate key)
      else
        let sim := { sim with scheduler := sim.scheduler.schedule_now key }
        match sim.entities.get_state other_key with
        | none => .error (.activateTargetMissing key other_key)
        | some EntityState.Active => .error (.activateAlreadyActive key other_key)
        | some EntityState.Passive =>
          let sim := { sim with entities := sim.entities.set_state other_key EntityState.Active }
          .ok { sim with scheduler := sim.scheduler.schedule_now other_key }
  | .ActivateMany other_keys =>
    match sim.entities.get_state key with
    | none => .error (.noState key)
    | some entity_state =>
      if entity_state = EntityState.Passive then .error (.passiveActivate key)
      else
        Simulation.activateLoop
          { sim with scheduler := sim.scheduler.schedule_now key } key other_keys
  | .Cancel other_key =>
    match sim.entities.get_state key with
    | none => .error (.noState key)
    | some entity_state =>
      if entity_state = EntityState.Passive then .error (.passiveCancel key other_key)
      else
        let sim := { sim with scheduler := sim.scheduler.schedule_now key }
        match sim.entities.get_state other_key with
        | none => .error (.cancelTargetMissing key other_key)
        | some EntityState.Passive => .error (.cancelTargetPassive key other_key)
        | some EntityState.Active =>
          let sim := { sim with entities := sim.entities.set_state other_key EntityState.Passive }
          match sim.scheduler.remove other_key with
          | (true, sched) => .ok { sim with scheduler := sched }
          | (false, _) => .error (.cancelNotScheduled key other_key)

/-- `Simulation::step_with`: pop the earliest event (`Break` if none), resume
its task, then apply the yielded action or free the slot on completion. -/
def Simulation.step_with {G V L : Type} (resume : G → State V → Except String (GenStep G V L))
    (sim : Simulation G V) : Except SimError (ShouldContinue × Simulation G V × List L) :=
  match sim.scheduler.pop with
  | none => .ok (.Break, sim, [])
  | some (event_entry, sched) =>
    let key := event_entry.entity_key
    let sim := { sim with scheduler := sched }
    match sim.entities.step_with resume key sim.state with
    | .error e => .error e
    | .ok (.Complete st log) =>
      .ok (.Advance, { sim with entities := (sim.entities.remove key).2, state := st }, log)
    | .ok (.Yielded action g st log) =>
      let sim := { sim with entities := sim.entities.setGen key g, state := st }
      match sim.handleAction key action with
      | .error e => .error e
      | .ok sim => .ok (.Advance, sim, log)

/-- `Simulation::run_with_limit`: loop `step` while it returns `Advance`,
breaking once the clock has reached the limit (checked after the step).
Rust's loop may diverge, so the model takes fuel; `some` means the loop
genuinely stopped, `none` that the fuel ran out. -/
def Simulation.run_with_limit {G V L : Type}
    (resume : G → State V → Except String (GenStep G V L)) :
    Nat → Nat → Simulation G V → List L →
      Except SimError (Option (Simulation G V × List L))
  | 0, _, _, _ => .ok none
  | fuel + 1, limit, sim, acc =>
    match Simulation.step_with resume sim with
    | .error e => .error e
    | .ok (.Break, sim', log) => .ok (some (sim', acc ++ log))
    | .ok (.Advance, sim', log) =>
      if limit ≤ sim'.scheduler.clock then .ok (some (sim', acc ++ log))
      else Simulation.run_with_limit resume fuel limit sim' (acc ++ log)

/-! ## Scheduler call sequences

The scheduler's external interface, as a deep-embedded operation so that
properties can be stated over every interleaving of calls. -/

/-- One external call on the `Scheduler`. -/
inductive SchedOp where
  | schedule (t : Nat) (k : Key)
  | scheduleNow (k : Key)
  | pop
  | remove (k : Key)
deriving DecidableEq, Repr

/-- Apply one call (dropping `pop`/`remove` return values). -/
def Scheduler.applyOp (s : Scheduler) : SchedOp → Scheduler
  | .schedule t k => s.schedule t k
  | .scheduleNow k => s.schedule_now k
  | .pop =>
    match s.pop with
    | none => s
    | some (_, s') => s'
  | .remove k => (s.remove k).2

/-- Run a sequence of calls, collecting the time of each successful pop. -/
def Scheduler.runFrom (s : Scheduler) : List SchedOp → Scheduler × List Nat
  | [] => (s, [])
  | SchedOp.pop :: ops =>
    match s.pop with
    | none => Scheduler.runFrom s ops
    | some (e, s') =>
      let r := Scheduler.runFrom s' ops
      (r.1, e.time :: r.2)
  | SchedOp.schedule t k :: ops => Scheduler.runFrom (s.schedule t k) ops
  | SchedOp.scheduleNow k :: ops => Scheduler.runFrom (s.schedule_now k) ops
  | SchedOp.remove k :: ops => Scheduler.runFrom (s.remove k).2 ops

/-- The scheduler reached from the initial state by a call sequence. -/
def Scheduler.runOps (ops : List SchedOp) : Scheduler :=
  (Scheduler.init.runFrom ops).1

/-! ## The handshake demo model (`examples/simple_model.rs`) -/

/-- The two value types the demo stores in the heterogeneous state:
the deferred `Option<Key>` of entity B and the `Passivated` flag pair. -/
inductive DemoVal where
  | keyOpt (k : Option Key)
  | passiv (entity_a entity_b : Bool)
deriving DecidableEq, Repr

/-- The lines the demo prints; `aHoldEnd`/`bHoldEnd` are the
`"<- HOLD"` lines, i.e. the hold-wakeups. -/
inductive DemoLog where
  | aHoldStart | aHoldEnd | aActivate | aPassivateStart | aPassivateEnd
  | bHoldStart | bHoldEnd | bActivate | bPassivateStart | bPassivateEnd
deriving DecidableEq, Repr

/-- `DemoLog` lines that mark a hold-wakeup (`"<- HOLD"`). -/
def DemoLog.isHoldWake : DemoLog → Bool
  | .aHoldEnd => true
  | .bHoldEnd => true
  | _ => false

/-- Number of hold-wakeups in a printed transcript. -/
def holdWakeCount (logs : List DemoLog) : Nat :=
  (logs.filter DemoLog.isHoldWake).length

/-- The suspension points of the two demo generators, with their captured
locals (entity A's key to B, entity B's key to A, and the store slot of the
`Passivated` record). -/
inductive DemoGen where
  | AStart (b_slot : Nat) (states_slot : Nat)
  | AAfterHold (bkey : Key) (states_slot : Nat)
  | AAfterActivate (bkey : Key) (states_slot : Nat)
  | AAfterPassivate (bkey : Key) (states_slot : Nat)
  | BStart (akey : Key) (states_slot : Nat)
  | BAfterFirstPassivate (akey : Key) (states_slot : Nat)
  | BAfterHold (akey : Key) (states_slot : Nat)
  | BAfterActivate (akey : Key) (states_slot : Nat)
  | BAfterPassivate (akey : Key) (states_slot : Nat)
deriving DecidableEq, Repr

/-- `state.get_mut(entity_states_key).unwrap().entity_a = v`; fails when the
slot does not hold a `Passivated` value (the source's `unwrap`). -/
def setPassivA (st : State DemoVal) (sslot : Nat) (v : Bool) :
    Except String (State DemoVal) :=
  match st.get ⟨sslot⟩ with
  | some (.passiv _ b) => .ok (st.setValue ⟨sslot⟩ (.passiv v b))
  | _ => .error "entity_states unwrap failed"

/-- `state.get_mut(entity_states_key).unwrap().entity_b = v`. -/
def setPassivB (st : State DemoVal) (sslot : Nat) (v : Bool) :
    Except String (State DemoVal) :=
  match st.get ⟨sslot⟩ with
  | some (.passiv a _) => .ok (st.setValue ⟨sslot⟩ (.passiv a v))
  | _ => .error "entity_states unwrap failed"

/-- Resume one demo generator from its current suspension point to the next
yield, mirroring the generator bodies of `entity_a` and `entity_b` in
`examples/simple_model.rs` segment by segment. -/
def demoResume : DemoGen → State DemoVal → Except String (GenStep DemoGen DemoVal DemoLog)
  | .AStart bslot sslot, st =>
    match st.remove ⟨bslot⟩ with
    | (some (.keyOpt (some bkey)), st) =>
      .ok (.Yielded (.Hold 5) (.AAfterHold bkey sslot) st [.aHoldStart])
    | _ => .error "entity_b_key unwrap failed"
  | .AAfterHold bkey sslot, st =>
    match st.get ⟨sslot⟩ with
    | some (.passiv _ b) =>
      if b then
        .ok (.Yielded (.ActivateOne bkey) (.AAfterActivate bkey sslot) st
          [.aHoldEnd, .aActivate])
      else
        (setPassivA st sslot true).map fun st =>
          .Yielded .Passivate (.AAfterPassivate bkey sslot) st
            [.aHoldEnd, .aPassivateStart]
    | _ => .error "entity_states unwrap failed"
  | .AAfterActivate bkey sslot, st =>
    (setPassivA st sslot true).map fun st =>
      .Yielded .Passivate (.AAfterPassivate bkey sslot) st [.aPassivateStart]
  | .AAfterPassivate bkey sslot, st =>
    (setPassivA st sslot false).map fun st =>
      .Yielded (.Hold 5) (.AAfterHold bkey sslot) st [.aPassivateEnd, .aHoldStart]
  | .BStart akey sslot, st =>
    (setPassivB st sslot true).map fun st =>
      .Yielded .Passivate (.BAfterFirstPassivate akey sslot) st [.bPassivateStart]
  | .BAfterFirstPassivate akey sslot, st =>
    (setPassivB st sslot false).map fun st =>
      .Yielded (.Hold 5) (.BAfterHold akey sslot) st [.bPassivateEnd, .bHoldStart]
  | .BAfterHold akey sslot, st =>
    match st.get ⟨sslot⟩ with
    | some (.passiv a _) =>
      if a then
        .ok (.Yielded (.ActivateOne akey) (.BAfterActivate akey sslot) st
          [.bHoldEnd, .bActivate])
      else
        (setPassivB st sslot true).map fun st =>
          .Yielded .Passivate (.BAfterPassivate akey sslot) st
            [.bHoldEnd, .bPassivateStart]
    | _ => .error "entity_states unwrap failed"
  | .BAfterActivate akey sslot, st =>
    (setPassivB st sslot true).map fun st =>
      .Yielded .Passivate (.BAfterPassivate akey sslot) st [.bPassivateStart]
  | .BAfterPassivate akey sslot, st =>
    (setPassivB st sslot false).map fun st =>
      .Yielded (.Hold 5) (.BAfterHold akey sslot) st [.bPassivateEnd, .bHoldStart]

/-- The setup performed by `main` of the demo: create the simulation, insert
the deferred key slot and the `Passivated` record into the store, add both
generators, patch the deferred key, and schedule B then A at time 0. -/
def demoSim : Simulation DemoGen DemoVal :=
  let simulation := Simulation.default DemoGen DemoVal
  let state := simulation.state
  let r1 := state.insert (DemoVal.keyOpt none)
  let entity_b_key := r1.1
  let r2 := r1.2.insert (DemoVal.passiv false false)
  let entity_states := r2.1
  let ra := simulation.add_generator (DemoGen.AStart entity_b_key.id entity_states.id)
  let a_key := ra.1
  let rb := ra.2.add_generator (DemoGen.BStart a_key entity_states.id)
  let b_key := rb.1
  let state := r2.2.setValue entity_b_key (DemoVal.keyOpt (some b_key))
  let simulation := { rb.2 with state := state }
  (simulation.schedule_now b_key).schedule_now a_key

/-- Running the demo simulation with a 60-second ceiling (fuel 200 is far
more than the 38 events the run processes). -/
def demoRun : Except SimError (Option (Simulation DemoGen DemoVal × List DemoLog)) :=
  Simulation.run_with_limit demoResume 200 60 demoSim []

/-- The scheduler invariant: every pending entry lies at or after the clock. -/
def Scheduler.Inv (s : Scheduler) : Prop := ∀ e ∈ s.events, s.clock ≤ e.time

/-- Pending handles, in queue order. -/
def Scheduler.keys (s : Scheduler) : List Key := s.events.map EventEntry.entity_key

/-- Observation variant of `run_with_limit` recording, for each processed
event, the clock right after the step together with the lines the resumed
generator printed during it.  Same loop structure as `run_with_limit`. -/
def Simulation.runTraceWithLimit {G V L : Type}
    (resume : G → State V → Except String (GenStep G V L)) :
    Nat → Nat → Simulation G V →
      Except SimError (Option (Simulation G V × List (Nat × List L)))
  | 0, _, _ => .ok none
  | fuel + 1, limit, sim =>
    match Simulation.step_with resume sim with
    | .error e => .error e
    | .ok (.Break, sim', _) => .ok (some (sim', []))
    | .ok (.Advance, sim', log) =>
      if limit ≤ sim'.scheduler.clock then
        .ok (some (sim', [(sim'.scheduler.clock, log)]))
      else
        match Simulation.runTraceWithLimit resume fuel limit sim' with
        | .error e => .error e
        | .ok none => .ok none
        | .ok (some (sf, tr)) => .ok (some (sf, (sim'.scheduler.clock, log) :: tr))

/-- The step trace of the handshake demo under the 60-second ceiling. -/
def demoTrace :
    Except SimError (Option (Simulation DemoGen DemoVal × List (Nat × List DemoLog))) :=
  Simulation.runTraceWithLimit demoResume 200 60 demoSim

/-- A degenerate generator used in concrete instantiations: its state is the
one `Action` it yields forever. -/
def actionResume : Action → State Unit → Except String (GenStep Action Unit Unit) :=
  fun g st => .ok (.Yielded g g st [])

/-- A degenerate generator that completes immediately. -/
def unitResume : Unit → State Unit → Except String (GenStep Unit Unit Unit) :=
  fun _ st => .ok (.Complete st [])

/-- A concrete simulation for the C2 witness: task 0 (Active, scheduled at 0)
forever yields `ActivateOne 1`; task 1 is already Active. -/
def simC2 : Simulation Action Unit :=
  ⟨⟨[⟨0, ⟨0⟩⟩], 0⟩,
   ⟨[some (.ActivateOne ⟨1⟩, EntityState.Active), some (.Passivate, EntityState.Active)]⟩,
   ⟨[]⟩⟩

/-- A concrete simulation for the C4 witness: task 0 (Active, scheduled at
time 2, clock 1) forever yields `Hold 7`. -/
def simC4 : Simulation Action Unit :=
  ⟨⟨[⟨2, ⟨0⟩⟩], 1⟩, ⟨[some (.Hold 7, EntityState.Active)]⟩, ⟨[]⟩⟩

/-- A concrete simulation for the C7 witness: the queue holds handle 5 but no
task 5 was ever added. -/
def simC7 : Simulation Unit Unit := ⟨⟨[⟨0, ⟨5⟩⟩], 0⟩, ⟨[]⟩, ⟨[]⟩⟩

/-- A concrete simulation for the C3 counterexample: task 0 (Active,
scheduled at time 3, nothing else pending) forever yields `Cancel 0` --
a self-cancel. -/
def simC3 : Simulation Action Unit :=
  ⟨⟨[⟨3, ⟨0⟩⟩], 0⟩, ⟨[some (.Cancel ⟨0⟩, EntityState.Active)]⟩, ⟨[]⟩⟩

/-- A concrete simulation for the C3 witness: task 0 (Active, scheduled)
forever yields `Cancel 1`; task 1 is Passive. -/
def simC3w : Simulation Action Unit :=
  ⟨⟨[⟨0, ⟨0⟩⟩], 0⟩,
   ⟨[some (.Cancel ⟨1⟩, EntityState.Active), some (.Hold 1, EntityState.Passive)]⟩, ⟨[]⟩⟩

/-- The orchestrator invariant on a scheduler/registry pair: pending handles
are pairwise distinct and each refers to a live entity whose flag is
Active. -/
def PendInv {G : Type} (sched : Scheduler) (c : Container G) : Prop :=
  sched.keys.Nodup ∧
  ∀ ev ∈ sched.events, c.get_state ev.entity_key = some EntityState.Active

/-! ## Theorems -/

/-! ## Scheduler lemmas -/

theorem popEntry_nil_of_none : ∀ {l : List EventEntry}, popEntry l = none → l = [] := by
  intro l h
  cases l with
  | nil => rfl
  | cons e rest =>
    simp only [popEntry] at h
    split at h
    · exact absurd h (by simp)
    · split at h <;> exact absurd h (by simp)

theorem popEntry_perm : ∀ {l : List EventEntry} {m : EventEntry} {r : List EventEntry},
    popEntry l = some (m, r) → List.Perm l (m :: r) := by
  intro l
  induction l with
  | nil => intro m r h; simp [popEntry] at h
  | cons e rest ih =>
    intro m r h
    simp only [popEntry] at h
    split at h
    · cases h
      exact List.Perm.refl _
    · rename_i m' rest' heq
      split at h
      · cases h
        exact List.Perm.refl _
      · cases h
        exact ((ih heq).cons e).trans (List.Perm.swap _ _ _)

theorem popEntry_min : ∀ {l : List EventEntry} {m : EventEntry} {r : List EventEntry},
    popEntry l = some (m, r) → ∀ x ∈ l, m.time ≤ x.time := by
  intro l
  induction l with
  | nil => intro m r h; simp [popEntry] at h
  | cons e rest ih =>
    intro m r h x hx
    simp only [popEntry] at h
    split at h
    · rename_i heq
      cases h
      rcases List.mem_cons.mp hx with rfl | hx
      · exact Nat.le_refl _
      · exact absurd (popEntry_nil_of_none heq ▸ hx) (List.not_mem_nil x)
    · rename_i m' rest' heq
      split at h
      · rename_i hle
        cases h
        rcases List.mem_cons.mp hx with rfl | hx
        · exact Nat.le_refl _
        · exact Nat.le_trans hle (ih heq x hx)
      · rename_i hlt
        cases h
        rcases List.mem_cons.mp hx with rfl | hx
        · exact Nat.le_of_lt (Nat.lt_of_not_le hlt)
        · exact ih heq x hx

/-- The three facts the source guarantees about a successful `pop`: the queue
loses exactly the returned entry, the clock becomes that entry's time, and
the entry's time was minimal. -/
theorem pop_spec {s : Scheduler} {e : EventEntry} {s' : Scheduler}
    (h : s.pop = some (e, s')) :
    List.Perm s.events (e :: s'.events) ∧ s'.clock = e.time ∧
      ∀ x ∈ s.events, e.time ≤ x.time := by
  unfold Scheduler.pop at h
  split at h
  · exact absurd h (by simp)
  · rename_i m rest heq
    cases h
    exact ⟨popEntry_perm heq, rfl, popEntry_min heq⟩

theorem pop_none {s : Scheduler} (h : s.pop = none) : s.events = [] := by
  unfold Scheduler.pop at h
  split at h
  · exact popEntry_nil_of_none (by assumption)
  · exact absurd h (by simp)

theorem schedule_clock (s : Scheduler) (t : Nat) (k : Key) :
    (s.schedule t k).clock = s.clock := by
  unfold Scheduler.schedule
  split <;> rfl

/-- When the handle is not pending, `schedule` appends one entry at
`clock + t`. -/
theorem schedule_not_pending {s : Scheduler} {k : Key}
    (h : ∀ ev ∈ s.events, ev.entity_key ≠ k) (t : Nat) :
    s.schedule t k = ⟨s.events ++ [⟨s.clock + t, k⟩], s.clock⟩ := by
  unfold Scheduler.schedule
  rw [if_neg]
  rintro ⟨ev, hev, hk⟩
  exact h ev hev hk

/-- When the handle is pending, `schedule` is the identity. -/
theorem schedule_pending {s : Scheduler} {k : Key} {ev : EventEntry}
    (hev : ev ∈ s.events) (hk : ev.entity_key = k) (t : Nat) :
    s.schedule t k = s := by
  unfold Scheduler.schedule
  exact if_pos ⟨ev, hev, hk⟩

theorem Inv_schedule {s : Scheduler} (h : s.Inv) (t : Nat) (k : Key) :
    (s.schedule t k).Inv := by
  intro e he
  rw [schedule_clock]
  unfold Scheduler.schedule at he
  split at he
  · exact h e he
  · rcases List.mem_append.mp he with he | he
    · exact h e he
    · rcases List.mem_singleton.mp he with rfl
      exact Nat.le_add_right _ _

theorem Inv_remove {s : Scheduler} (h : s.Inv) (k : Key) : (s.remove k).2.Inv := by
  unfold Scheduler.remove
  split
  · intro e he
    exact h e (List.mem_of_mem_filter he)
  · exact h

/-- Popping under the invariant: the clock does not decrease, lands on the
popped entry's time, and the invariant is preserved. -/
theorem Inv_pop {s : Scheduler} {e : EventEntry} {s' : Scheduler}
    (hInv : s.Inv) (h : s.pop = some (e, s')) :
    s.clock ≤ s'.clock ∧ s'.clock = e.time ∧ s'.Inv := by
  obtain ⟨hperm, hclock, hmin⟩ := pop_spec h
  have hmem : e ∈ s.events := hperm.mem_iff.mpr (List.mem_cons_self e _)
  refine ⟨hclock ▸ hInv e hmem, hclock, ?_⟩
  intro x hx
  have : x ∈ s.events := hperm.mem_iff.mpr (List.mem_cons_of_mem _ hx)
  exact hclock ▸ hmin x this

theorem Inv_applyOp {s : Scheduler} (h : s.Inv) (op : SchedOp) : (s.applyOp op).Inv := by
  cases op with
  | schedule t k => exact Inv_schedule h t k
  | scheduleNow k => exact Inv_schedule h 0 k
  | pop =>
    unfold Scheduler.applyOp
    cases hp : s.pop with
    | none => exact h
    | some p => exact (Inv_pop h hp).2.2
  | remove k => exact Inv_remove h k

theorem remove_clock (s : Scheduler) (k : Key) : (s.remove k).2.clock = s.clock := by
  unfold Scheduler.remove
  split <;> rfl

theorem applyOp_clock_mono {s : Scheduler} (h : s.Inv) (op : SchedOp) :
    s.clock ≤ (s.applyOp op).clock := by
  cases op with
  | schedule t k =>
    show s.clock ≤ (s.schedule t k).clock
    rw [schedule_clock]
  | scheduleNow k =>
    show s.clock ≤ (s.schedule 0 k).clock
    rw [schedule_clock]
  | pop =>
    show s.clock ≤ (match s.pop with | none => s | some (_, s') => s').clock
    cases hp : s.pop with
    | none => exact Nat.le_refl _
    | some p => exact (Inv_pop h hp).1
  | remove k =>
    show s.clock ≤ (s.remove k).2.clock
    rw [remove_clock]

/-- The pop times collected along any call sequence, starting from an
invariant-satisfying state, form a chain above the starting clock. -/
theorem runFrom_chain {ops : List SchedOp} : ∀ {s : Scheduler}, s.Inv →
    List.Chain (· ≤ ·) s.clock (s.runFrom ops).2 := by
  induction ops with
  | nil => intro s _; exact List.Chain.nil
  | cons op ops ih =>
    intro s hInv
    cases op with
    | pop =>
      rw [Scheduler.runFrom]
      cases hp : s.pop with
      | none => exact ih hInv
      | some p =>
        obtain ⟨e, s'⟩ := p
        obtain ⟨hle, hclock, hInv'⟩ := Inv_pop hInv hp
        exact List.Chain.cons (hclock ▸ hle) (hclock ▸ ih hInv')
    | schedule t k =>
      rw [Scheduler.runFrom]
      have h2 := ih (Inv_schedule hInv t k)
      rwa [schedule_clock] at h2
    | scheduleNow k =>
      rw [Scheduler.runFrom]
      have h2 := ih (Inv_schedule hInv 0 k)
      rwa [schedule_clock] at h2
    | remove k =>
      rw [Scheduler.runFrom]
      have h2 := ih (Inv_remove hInv k)
      rwa [remove_clock] at h2

theorem Inv_runFrom {ops : List SchedOp} : ∀ {s : Scheduler}, s.Inv →
    (s.runFrom ops).1.Inv := by
  induction ops with
  | nil => intro s h; exact h
  | cons op ops ih =>
    intro s hInv
    cases op with
    | pop =>
      rw [Scheduler.runFrom]
      cases hp : s.pop with
      | none => exact ih hInv
      | some p =>
        obtain ⟨e, s'⟩ := p
        exact ih (Inv_pop hInv hp).2.2
    | schedule t k =>
      rw [Scheduler.runFrom]
      exact ih (Inv_schedule hInv t k)
    | scheduleNow k =>
      rw [Scheduler.runFrom]
      exact ih (Inv_schedule hInv 0 k)
    | remove k =>
      rw [Scheduler.runFrom]
      exact ih (Inv_remove hInv k)

theorem Inv_runOps (ops : List SchedOp) : (Scheduler.runOps ops).Inv :=
  Inv_runFrom (by intro e he; exact absurd he (List.not_mem_nil e))

theorem keysNodup_schedule {s : Scheduler} (h : s.keys.Nodup) (t : Nat) (k : Key) :
    (s.schedule t k).keys.Nodup := by
  unfold Scheduler.schedule
  split
  · exact h
  · rename_i hnp
    unfold Scheduler.keys
    rw [List.map_append]
    simp only [List.map_cons, List.map_nil]
    rw [List.nodup_append]
    refine ⟨h, List.nodup_singleton k, ?_⟩
    intro x hx hk
    rcases List.mem_singleton.mp hk with rfl
    rcases List.mem_map.mp hx with ⟨ev, hev, hevk⟩
    exact hnp ⟨ev, hev, hevk⟩

theorem keysNodup_pop {s : Scheduler} {e : EventEntry} {s' : Scheduler}
    (h : s.keys.Nodup) (hp : s.pop = some (e, s')) :
    s'.keys.Nodup ∧ e.entity_key ∉ s'.keys := by
  obtain ⟨hperm, -, -⟩ := pop_spec hp
  have hmap : List.Perm s.keys (e.entity_key :: s'.keys) := hperm.map EventEntry.entity_key
  have : (e.entity_key :: s'.keys).Nodup := (hmap.nodup_iff).mp h
  exact ⟨this.of_cons, (List.nodup_cons.mp this).1⟩

theorem keysNodup_remove {s : Scheduler} (h : s.keys.Nodup) (k : Key) :
    (s.remove k).2.keys.Nodup := by
  unfold Scheduler.remove
  split
  · exact ((List.filter_sublist s.events).map EventEntry.entity_key).nodup h
  · exact h

theorem keysNodup_runFrom {ops : List SchedOp} : ∀ {s : Scheduler}, s.keys.Nodup →
    (s.runFrom ops).1.keys.Nodup := by
  induction ops with
  | nil => intro s h; exact h
  | cons op ops ih =>
    intro s hnd
    cases op with
    | pop =>
      rw [Scheduler.runFrom]
      cases hp : s.pop with
      | none => exact ih hnd
      | some p =>
        obtain ⟨e, s'⟩ := p
        exact ih (keysNodup_pop hnd hp).1
    | schedule t k =>
      rw [Scheduler.runFrom]
      exact ih (keysNodup_schedule hnd t k)
    | scheduleNow k =>
      rw [Scheduler.runFrom]
      exact ih (keysNodup_schedule hnd 0 k)
    | remove k =>
      rw [Scheduler.runFrom]
      exact ih (keysNodup_remove hnd k)

/-- C1: along every sequence of `schedule`/`schedule_now`/`pop` (and `remove`)
calls from the initial scheduler, the successful pops return entries in
non-decreasing time order; a pop sets the clock to the popped entry's time;
no call ever decreases the clock; `schedule` never touches the clock and
enqueues a non-pending handle at `clock + offset`. -/
theorem scheduler_clock_monotone (ops : List SchedOp) :
    List.Chain' (· ≤ ·) (Scheduler.init.runFrom ops).2 ∧
    (∀ (s : Scheduler) (e : EventEntry) (s' : Scheduler),
      s.pop = some (e, s') → s'.clock = e.time) ∧
    (∀ op : SchedOp, (Scheduler.runOps ops).clock ≤ ((Scheduler.runOps ops).applyOp op).clock) ∧
    (∀ (s : Scheduler) (t : Nat) (k : Key), (s.schedule t k).clock = s.clock) ∧
    (∀ (t : Nat) (k : Key), (∀ ev ∈ (Scheduler.runOps ops).events, ev.entity_key ≠ k) →
      ((Scheduler.runOps ops).schedule t k).events =
        (Scheduler.runOps ops).events ++ [⟨(Scheduler.runOps ops).clock + t, k⟩]) := by
  have hInit : Scheduler.init.Inv := by
    intro e he
    exact absurd he (List.not_mem_nil e)
  refine ⟨?_, fun s e s' h => (pop_spec h).2.1,
    fun op => applyOp_clock_mono (Inv_runOps ops) op,
    fun s t k => schedule_clock s t k, fun t k h => ?_⟩
  · have hchain := @runFrom_chain ops Scheduler.init hInit
    exact (show List.Chain' (· ≤ ·) (Scheduler.init.clock :: (Scheduler.init.runFrom ops).2)
      from hchain).tail
  · rw [schedule_not_pending h t]

/-- Witness for C1 at a concrete scheduler: popping the single entry at time 5
succeeds and the clock lands on 5. -/
theorem scheduler_clock_monotone_witness :
    (⟨[⟨5, ⟨0⟩⟩], 0⟩ : Scheduler).pop = some (⟨5, ⟨0⟩⟩, ⟨[], 5⟩) ∧
    (⟨[], 5⟩ : Scheduler).clock = (⟨5, ⟨0⟩⟩ : EventEntry).time :=
  ⟨rfl, (scheduler_clock_monotone []).2.1 ⟨[⟨5, ⟨0⟩⟩], 0⟩ ⟨5, ⟨0⟩⟩ ⟨[], 5⟩ rfl⟩

/-- C5: scheduling an already-pending handle leaves the scheduler (queue and
clock) unchanged; scheduling K at 4 then re-scheduling at 1 keeps the single
entry at time 4; along every call sequence each handle has at most one
pending entry. -/
theorem schedule_pending_noop (s : Scheduler) (t : Nat) (k : Key) :
    ((∃ ev ∈ s.events, ev.entity_key = k) → s.schedule t k = s) ∧
    ((Scheduler.init.schedule 4 k).schedule 1 k = Scheduler.init.schedule 4 k ∧
      (Scheduler.init.schedule 4 k).events = [⟨4, k⟩]) ∧
    (∀ ops : List SchedOp, (Scheduler.runOps ops).keys.Nodup) := by
  have h4 : Scheduler.init.schedule 4 k = ⟨[⟨4, k⟩], 0⟩ := by
    rw [schedule_not_pending (fun ev hev => absurd hev (List.not_mem_nil ev)) 4]
    rfl
  refine ⟨?_, ?_, ?_⟩
  · rintro ⟨ev, hev, hk⟩
    exact schedule_pending hev hk t
  · rw [h4]
    exact ⟨@schedule_pending ⟨[⟨4, k⟩], 0⟩ k ⟨4, k⟩ (List.mem_singleton_self _) rfl 1, rfl⟩
  · intro ops
    exact keysNodup_runFrom (by simp [Scheduler.init, Scheduler.keys])

/-- Witness for C5: re-scheduling the pending handle 3 is a no-op. -/
theorem schedule_pending_noop_witness :
    (∃ ev ∈ (⟨[⟨7, ⟨3⟩⟩], 2⟩ : Scheduler).events, ev.entity_key = ⟨3⟩) ∧
    (⟨[⟨7, ⟨3⟩⟩], 2⟩ : Scheduler).schedule 9 ⟨3⟩ = ⟨[⟨7, ⟨3⟩⟩], 2⟩ :=
  ⟨⟨⟨7, ⟨3⟩⟩, List.mem_singleton_self _, rfl⟩,
    (schedule_pending_noop ⟨[⟨7, ⟨3⟩⟩], 2⟩ 9 ⟨3⟩).1
      ⟨⟨7, ⟨3⟩⟩, List.mem_singleton_self _, rfl⟩⟩

/-- Evaluating `State::remove` when the slot holds a value. -/
theorem State.remove_eq_of_lookup {V : Type} {s : State V} {k : StateKey} {v : V}
    (h : s.store[k.id]? = some (some v)) :
    s.remove k = (some v, ⟨s.store.set k.id none⟩) := by
  unfold State.remove
  rw [h]

/-- Evaluating `State::remove` when the slot is empty. -/
theorem State.remove_eq_of_lookup_none {V : Type} {s : State V} {k : StateKey}
    (h : s.store[k.id]? = some none) :
    s.remove k = (none, s) := by
  unfold State.remove
  rw [h]

/-- C6: the store round-trip: `insert` then `get` returns the value; `remove`
returns it and leaves the slot empty (so `get` then sees `none` and a second
`remove` is a non-fatal `none`); `insert` always succeeds and returns a fresh
handle (slot count only grows and slots are never reused). -/
theorem state_store_roundtrip {V : Type} (s : State V) (v : V) :
    ((s.insert v).2.get (s.insert v).1 = some v) ∧
    (((s.insert v).2.remove (s.insert v).1).1 = some v) ∧
    (((s.insert v).2.remove (s.insert v).1).2.get (s.insert v).1 = none) ∧
    ((((s.insert v).2.remove (s.insert v).1).2.remove (s.insert v).1).1 = none) ∧
    ((s.insert v).1.id = s.store.length ∧
      (s.insert v).2.store.length = s.store.length + 1) ∧
    (∀ k : StateKey, (s.remove k).2.store.length = s.store.length) ∧
    (∀ k : StateKey, k.id < s.store.length → (s.insert v).1 ≠ k) := by
  have hlen : s.store.length < (s.store ++ [some v]).length := by
    rw [List.length_append, List.length_singleton]
    exact Nat.lt_succ_self _
  have hget : ((s.insert v).2).store[((s.insert v).1).id]? = some (some v) := by
    show (s.store ++ [some v])[s.store.length]? = some (some v)
    exact List.getElem?_concat_length s.store (some v)
  have hset : ((⟨(s.insert v).2.store.set (s.insert v).1.id none⟩ :
      State V)).store[((s.insert v).1).id]? = some none := by
    show ((s.store ++ [some v]).set s.store.length none)[s.store.length]? = some none
    exact List.getElem?_set_self hlen
  refine ⟨?_, ?_, ?_, ?_, ⟨rfl, ?_⟩, ?_, ?_⟩
  · show (((s.insert v).2).store[((s.insert v).1).id]?).bind id = some v
    rw [hget]
    rfl
  · rw [State.remove_eq_of_lookup hget]
  · rw [State.remove_eq_of_lookup hget]
    show (((⟨(s.insert v).2.store.set (s.insert v).1.id none⟩ :
      State V)).store[((s.insert v).1).id]?).bind id = none
    rw [hset]
    rfl
  · rw [State.remove_eq_of_lookup hget, State.remove_eq_of_lookup_none hset]
  · show (s.store ++ [some v]).length = s.store.length + 1
    rw [List.length_append, List.length_singleton]
  · intro k
    unfold State.remove
    split
    · show ((s.store.set k.id none) : List (Option V)).length = s.store.length
      exact List.length_set s.store k.id none
    · rfl
  · intro k hk hcontra
    have : k.id = s.store.length := by
      rw [← hcontra]
      rfl
    exact absurd (this ▸ hk) (Nat.lt_irrefl _)

/-- C9: the handshake demo run with a 60-second ceiling finishes without any
failure, with terminal clock 60 and exactly 12 hold-wakeups across both
entities, one at each of the simulated times 5, 10, ..., 60. -/
theorem handshake_run :
    demoRun.map (Option.map fun p => (p.1.scheduler.clock, holdWakeCount p.2)) =
      .ok (some (60, 12)) ∧
    demoTrace.map (Option.map fun p =>
      (p.2.filter fun q => 0 < holdWakeCount q.2).map Prod.fst) =
      .ok (some [5, 10, 15, 20, 25, 30, 35, 40, 45, 50, 55, 60]) :=
  ⟨rfl, rfl⟩

/-! ## Container lemmas -/

theorem get_state_some {G : Type} {c : Container G} {key : Key} {st : EntityState}
    (h : c.get_state key = some st) :
    ∃ g : G, c.inner[key.id]? = some (some (g, st)) := by
  unfold Container.get_state at h
  cases hl : c.inner[key.id]? with
  | none => rw [hl] at h; exact absurd h (by simp)
  | some o =>
    cases o with
    | none => rw [hl] at h; exact absurd h (by simp)
    | some p =>
      obtain ⟨g, st'⟩ := p
      rw [hl] at h
      have hst : st' = st := by simpa using h
      subst hst
      exact ⟨g, rfl⟩

theorem lookup_lt_length {G : Type} {c : Container G} {key : Key}
    {o : Option (G × EntityState)} (h : c.inner[key.id]? = some o) :
    key.id < c.inner.length := by
  rcases List.getElem?_eq_some.mp h with ⟨hlt, -⟩
  exact hlt

theorem get_state_setGen {G : Type} (c : Container G) (key k : Key) (g : G) :
    (c.setGen key g).get_state k = c.get_state k := by
  unfold Container.setGen
  split
  · rename_i g0 st hl
    by_cases hk : key.id = k.id
    · unfold Container.get_state
      rw [← hk, List.getElem?_set_self (lookup_lt_length hl), hl]
      rfl
    · unfold Container.get_state
      rw [List.getElem?_set_ne hk]
  · rfl

theorem get_state_set_state_self {G : Type} {c : Container G} {key : Key}
    {st0 : EntityState} (h : c.get_state key = some st0) (st : EntityState) :
    (c.set_state key st).get_state key = some st := by
  obtain ⟨g, hl⟩ := get_state_some h
  unfold Container.set_state
  rw [hl]
  unfold Container.get_state
  rw [List.getElem?_set_self (lookup_lt_length hl)]
  rfl

theorem get_state_set_state_ne {G : Type} (c : Container G) {key k : Key}
    (h : key.id ≠ k.id) (st : EntityState) :
    (c.set_state key st).get_state k = c.get_state k := by
  unfold Container.set_state
  split
  · unfold Container.get_state
    rw [List.getElem?_set_ne h]
  · rfl

theorem get_state_remove_self {G : Type} (c : Container G) (key : Key) :
    ((c.remove key).2).get_state key = none := by
  unfold Container.remove
  split
  · rename_i v hl
    unfold Container.get_state
    rw [List.getElem?_set_self (lookup_lt_length hl)]
    rfl
  · rename_i hne
    unfold Container.get_state
    cases hl : c.inner[key.id]? with
    | none => rfl
    | some o =>
      cases o with
      | none => rfl
      | some v => exact (hne v hl).elim

theorem get_state_remove_ne {G : Type} (c : Container G) {key k : Key}
    (h : key.id ≠ k.id) :
    ((c.remove key).2).get_state k = c.get_state k := by
  unfold Container.remove
  split
  · unfold Container.get_state
    rw [List.getElem?_set_ne h]
  · rfl

theorem get_state_add {G : Type} {c : Container G} {k : Key} {st : EntityState}
    (h : c.get_state k = some st) (g : G) :
    ((c.add_generator g).2).get_state k = some st := by
  obtain ⟨g0, hl⟩ := get_state_some h
  show ((c.inner ++ [some (g, EntityState.Active)])[k.id]?.bind id).map (fun p => p.2) = some st
  rw [List.getElem?_append_left (lookup_lt_length hl), hl]
  rfl

/-! ## Evaluation lemmas for one orchestrator step -/

theorem step_with_yield {G V L : Type}
    {resume : G → State V → Except String (GenStep G V L)}
    {sim : Simulation G V} {e : EventEntry} {sched : Scheduler}
    {a : Action} {g : G} {st : State V} {log : List L}
    (hpop : sim.scheduler.pop = some (e, sched))
    (hres : Container.step_with sim.entities resume e.entity_key sim.state =
      .ok (.Yielded a g st log)) :
    Simulation.step_with resume sim =
      match Simulation.handleAction ⟨sched, sim.entities.setGen e.entity_key g, st⟩
          e.entity_key a with
      | .error err => .error err
      | .ok sim2 => .ok (.Advance, sim2, log) := by
  unfold Simulation.step_with
  rw [hpop]
  simp only
  rw [hres]

theorem step_with_complete {G V L : Type}
    {resume : G → State V → Except String (GenStep G V L)}
    {sim : Simulation G V} {e : EventEntry} {sched : Scheduler}
    {st : State V} {log : List L}
    (hpop : sim.scheduler.pop = some (e, sched))
    (hres : Container.step_with sim.entities resume e.entity_key sim.state =
      .ok (.Complete st log)) :
    Simulation.step_with resume sim =
      .ok (.Advance, ⟨sched, (sim.entities.remove e.entity_key).2, st⟩, log) := by
  unfold Simulation.step_with
  rw [hpop]
  simp only
  rw [hres]

theorem step_with_resume_error {G V L : Type}
    {resume : G → State V → Except String (GenStep G V L)}
    {sim : Simulation G V} {e : EventEntry} {sched : Scheduler} {err : SimError}
    (hpop : sim.scheduler.pop = some (e, sched))
    (hres : Container.step_with sim.entities resume e.entity_key sim.state = .error err) :
    Simulation.step_with resume sim = .error err := by
  unfold Simulation.step_with
  rw [hpop]
  simp only
  rw [hres]

theorem handleAction_hold_active {G V : Type} {sim : Simulation G V} {key : Key}
    (hA : sim.entities.get_state key = some EntityState.Active) (d : Nat) :
    sim.handleAction key (.Hold d) =
      .ok { sim with scheduler := sim.scheduler.schedule d key } := by
  unfold Simulation.handleAction
  rw [hA]
  simp

theorem handleAction_hold_passive {G V : Type} {sim : Simulation G V} {key : Key}
    (hP : sim.entities.get_state key = some EntityState.Passive) (d : Nat) :
    sim.handleAction key (.Hold d) = .error (.passiveHold key) := by
  unfold Simulation.handleAction
  rw [hP]
  simp

theorem handleAction_passivate_active {G V : Type} {sim : Simulation G V} {key : Key}
    (hA : sim.entities.get_state key = some EntityState.Active) :
    sim.handleAction key .Passivate =
      .ok { sim with entities := sim.entities.set_state key EntityState.Passive } := by
  unfold Simulation.handleAction
  rw [hA]

theorem handleAction_passivate_passive {G V : Type} {sim : Simulation G V} {key : Key}
    (hP : sim.entities.get_state key = some EntityState.Passive) :
    sim.handleAction key .Passivate = .error (.passivePassivate key) := by
  unfold Simulation.handleAction
  rw [hP]

theorem handleAction_activateOne_active_target {G V : Type} {sim : Simulation G V}
    {key u : Key}
    (hA : sim.entities.get_state key = some EntityState.Active)
    (hU : sim.entities.get_state u = some EntityState.Active) :
    sim.handleAction key (.ActivateOne u) = .error (.activateAlreadyActive key u) := by
  simp only [Simulation.handleAction]
  rw [hA]
  simp only
  rw [hU]
  simp

theorem handleAction_activateOne_passive_target {G V : Type} {sim : Simulation G V}
    {key u : Key}
    (hA : sim.entities.get_state key = some EntityState.Active)
    (hU : sim.entities.get_state u = some EntityState.Passive) :
    sim.handleAction key (.ActivateOne u) =
      .ok ⟨(sim.scheduler.schedule_now key).schedule_now u,
        sim.entities.set_state u EntityState.Active, sim.state⟩ := by
  simp only [Simulation.handleAction]
  rw [hA]
  simp only
  rw [hU]
  simp

theorem handleAction_cancel_passive_target {G V : Type} {sim : Simulation G V}
    {key u : Key}
    (hA : sim.entities.get_state key = some EntityState.Active)
    (hU : sim.entities.get_state u = some EntityState.Passive) :
    sim.handleAction key (.Cancel u) = .error (.cancelTargetPassive key u) := by
  simp only [Simulation.handleAction]
  rw [hA]
  simp only
  rw [hU]
  simp

theorem handleAction_cancel_active_target {G V : Type} {sim : Simulation G V}
    {key u : Key}
    (hA : sim.entities.get_state key = some EntityState.Active)
    (hU : sim.entities.get_state u = some EntityState.Active) :
    sim.handleAction key (.Cancel u) =
      match (sim.scheduler.schedule_now key).remove u with
      | (true, sched) => .ok ⟨sched, sim.entities.set_state u EntityState.Passive, sim.state⟩
      | (false, _) => .error (.cancelNotScheduled key u) := by
  simp only [Simulation.handleAction]
  rw [hA]
  simp only
  rw [hU]
  simp

/-- C2: when the popped task `T` (Active, not otherwise pending) yields
`ActivateOne U`: if `U` is Active the run fails fatally; if `U` is Passive
then `U` is flipped to Active, `U` is enqueued at the current clock time, and
`T` is rescheduled at the current clock time. -/
theorem activate_one_step {G V L : Type}
    (resume : G → State V → Except String (GenStep G V L))
    (sim : Simulation G V) (e : EventEntry) (sched : Scheduler) (u : Key)
    (g : G) (st : State V) (log : List L)
    (hpop : sim.scheduler.pop = some (e, sched))
    (hres : Container.step_with sim.entities resume e.entity_key sim.state =
      .ok (.Yielded (.ActivateOne u) g st log))
    (hT : sim.entities.get_state e.entity_key = some EntityState.Active)
    (hTnp : ∀ ev ∈ sched.events, ev.entity_key ≠ e.entity_key)
    (hUnp : ∀ ev ∈ sched.events, ev.entity_key ≠ u) :
    (sim.entities.get_state u = some EntityState.Active →
      Simulation.step_with resume sim = .error (.activateAlreadyActive e.entity_key u)) ∧
    (sim.entities.get_state u = some EntityState.Passive →
      ∃ sim' : Simulation G V,
        Simulation.step_with resume sim = .ok (.Advance, sim', log) ∧
        sim'.entities.get_state u = some EntityState.Active ∧
        sim'.scheduler.clock = e.time ∧
        (⟨e.time, u⟩ : EventEntry) ∈ sim'.scheduler.events ∧
        (⟨e.time, e.entity_key⟩ : EventEntry) ∈ sim'.scheduler.events) := by
  have hstep := step_with_yield hpop hres
  have hclock : sched.clock = e.time := (pop_spec hpop).2.1
  have hT1 : (sim.entities.setGen e.entity_key g).get_state e.entity_key =
      some EntityState.Active := by
    rw [get_state_setGen]; exact hT
  constructor
  · intro hU
    have hU1 : (sim.entities.setGen e.entity_key g).get_state u =
        some EntityState.Active := by
      rw [get_state_setGen]; exact hU
    rw [hstep, handleAction_activateOne_active_target hT1 hU1]
  · intro hU
    have hU1 : (sim.entities.setGen e.entity_key g).get_state u =
        some EntityState.Passive := by
      rw [get_state_setGen]; exact hU
    have hne : u ≠ e.entity_key := by
      intro h
      rw [h, hT] at hU
      simp at hU
    have hs1 : sched.schedule_now e.entity_key =
        ⟨sched.events ++ [⟨e.time, e.entity_key⟩], e.time⟩ := by
      rw [Scheduler.schedule_now, schedule_not_pending hTnp 0, hclock, Nat.add_zero]
    have hs2 : (⟨sched.events ++ [⟨e.time, e.entity_key⟩], e.time⟩ : Scheduler).schedule_now u =
        ⟨(sched.events ++ [⟨e.time, e.entity_key⟩]) ++ [⟨e.time, u⟩], e.time⟩ := by
      rw [Scheduler.schedule_now, schedule_not_pending ?h 0, Nat.add_zero]
      case h =>
        intro ev hev
        rcases List.mem_append.mp hev with hev | hev
        · exact hUnp ev hev
        · rcases List.mem_singleton.mp hev with rfl
          exact fun hc => hne hc.symm
    rw [hstep, handleAction_activateOne_passive_target hT1 hU1]
    refine ⟨⟨⟨(sched.events ++ [⟨e.time, e.entity_key⟩]) ++ [⟨e.time, u⟩], e.time⟩,
      (sim.entities.setGen e.entity_key g).set_state u EntityState.Active, st⟩,
      ?_, ?_, rfl, ?_, ?_⟩
    · show Except.ok (ShouldContinue.Advance,
        (⟨(sched.schedule_now e.entity_key).schedule_now u,
          (sim.entities.setGen e.entity_key g).set_state u EntityState.Active, st⟩ :
          Simulation G V), log) = _
      rw [hs1, hs2]
    · exact get_state_set_state_self hU1 EntityState.Active
    · simp
    · simp

/-- Witness for C2: activating the already-Active task 1 fails fatally. -/
theorem activate_one_step_witness :
    Simulation.step_with actionResume simC2 =
      .error (.activateAlreadyActive ⟨0⟩ ⟨1⟩) :=
  (activate_one_step actionResume simC2 ⟨0, ⟨0⟩⟩ ⟨[], 0⟩ ⟨1⟩ (.ActivateOne ⟨1⟩) ⟨[]⟩ []
    rfl rfl rfl (fun ev hev => absurd hev (List.not_mem_nil ev))
    (fun ev hev => absurd hev (List.not_mem_nil ev))).1 rfl

/-- C4: when the popped task `T` yields `Hold d` while Active it is
rescheduled at `clock + d`; when it yields `Passivate` while Active its flag
becomes Passive and nothing is rescheduled (the queue is exactly the popped
remainder); a Passive task yielding `Hold` or `Passivate` fails fatally. -/
theorem hold_passivate_step {G V L : Type}
    (resume : G → State V → Except String (GenStep G V L))
    (sim : Simulation G V) (e : EventEntry) (sched : Scheduler)
    (hpop : sim.scheduler.pop = some (e, sched)) :
    (∀ (d : Nat) (g : G) (st : State V) (log : List L),
      Container.step_with sim.entities resume e.entity_key sim.state =
        .ok (.Yielded (.Hold d) g st log) →
      sim.entities.get_state e.entity_key = some EntityState.Active →
      (∀ ev ∈ sched.events, ev.entity_key ≠ e.entity_key) →
      Simulation.step_with resume sim =
        .ok (.Advance, ⟨⟨sched.events ++ [⟨e.time + d, e.entity_key⟩], e.time⟩,
          sim.entities.setGen e.entity_key g, st⟩, log)) ∧
    (∀ (g : G) (st : State V) (log : List L),
      Container.step_with sim.entities resume e.entity_key sim.state =
        .ok (.Yielded .Passivate g st log) →
      sim.entities.get_state e.entity_key = some EntityState.Active →
      Simulation.step_with resume sim =
        .ok (.Advance, ⟨sched,
          (sim.entities.setGen e.entity_key g).set_state e.entity_key EntityState.Passive,
          st⟩, log) ∧
      ((sim.entities.setGen e.entity_key g).set_state e.entity_key
          EntityState.Passive).get_state e.entity_key = some EntityState.Passive) ∧
    (∀ (d : Nat) (g : G) (st : State V) (log : List L),
      Container.step_with sim.entities resume e.entity_key sim.state =
        .ok (.Yielded (.Hold d) g st log) →
      sim.entities.get_state e.entity_key = some EntityState.Passive →
      Simulation.step_with resume sim = .error (.passiveHold e.entity_key)) ∧
    (∀ (g : G) (st : State V) (log : List L),
      Container.step_with sim.entities resume e.entity_key sim.state =
        .ok (.Yielded .Passivate g st log) →
      sim.entities.get_state e.entity_key = some EntityState.Passive →
      Simulation.step_with resume sim = .error (.passivePassivate e.entity_key)) := by
  have hclock : sched.clock = e.time := (pop_spec hpop).2.1
  refine ⟨?_, ?_, ?_, ?_⟩
  · intro d g st log hres hT hTnp
    have hT1 : (sim.entities.setGen e.entity_key g).get_state e.entity_key =
        some EntityState.Active := by
      rw [get_state_setGen]; exact hT
    rw [step_with_yield hpop hres, handleAction_hold_active hT1 d]
    show Except.ok (ShouldContinue.Advance,
      (⟨sched.schedule d e.entity_key, sim.entities.setGen e.entity_key g, st⟩ :
        Simulation G V), log) = _
    rw [schedule_not_pending hTnp d, hclock]
  · intro g st log hres hT
    have hT1 : (sim.entities.setGen e.entity_key g).get_state e.entity_key =
        some EntityState.Active := by
      rw [get_state_setGen]; exact hT
    rw [step_with_yield hpop hres, handleAction_passivate_active hT1]
    exact ⟨rfl, get_state_set_state_self hT1 EntityState.Passive⟩
  · intro d g st log hres hT
    have hT1 : (sim.entities.setGen e.entity_key g).get_state e.entity_key =
        some EntityState.Passive := by
      rw [get_state_setGen]; exact hT
    rw [step_with_yield hpop hres, handleAction_hold_passive hT1 d]
  · intro g st log hres hT
    have hT1 : (sim.entities.setGen e.entity_key g).get_state e.entity_key =
        some EntityState.Passive := by
      rw [get_state_setGen]; exact hT
    rw [step_with_yield hpop hres, handleAction_passivate_passive hT1]

/-- Witness for C4: the hold reschedules task 0 at time 2 + 7. -/
theorem hold_passivate_step_witness :
    Simulation.step_with actionResume simC4 =
      .ok (.Advance, ⟨⟨[] ++ [⟨2 + 7, ⟨0⟩⟩], 2⟩,
        simC4.entities.setGen ⟨0⟩ (.Hold 7), ⟨[]⟩⟩, []) :=
  (hold_passivate_step actionResume simC4 ⟨2, ⟨0⟩⟩ ⟨[], 2⟩ rfl).1 7 (.Hold 7) ⟨[]⟩ []
    rfl rfl (fun ev hev => absurd hev (List.not_mem_nil ev))

/-- A successful `Container::step_with` implies the slot was occupied. -/
theorem container_step_ok_lookup {G V L : Type}
    {c : Container G} {resume : G → State V → Except String (GenStep G V L)}
    {key : Key} {st : State V} {r : GenStep G V L}
    (h : c.step_with resume key st = .ok r) :
    ∃ p : G × EntityState, c.inner[key.id]? = some (some p) := by
  unfold Container.step_with at h
  cases hl : c.inner[key.id]? with
  | none => rw [hl] at h; exact absurd h (by simp)
  | some o =>
    cases o with
    | none => rw [hl] at h; exact absurd h (by simp)
    | some p => exact ⟨p, rfl⟩

/-- C7: resuming a popped handle whose container slot is empty (the task was
never added, or completed and was removed) fails fatally; on completion the
orchestrator immediately empties the task's slot, and `add_generator` (the
only slot-creating call) never refills an emptied slot. -/
theorem invalid_handle_step {G V L : Type}
    (resume : G → State V → Except String (GenStep G V L))
    (sim : Simulation G V) (e : EventEntry) (sched : Scheduler)
    (hpop : sim.scheduler.pop = some (e, sched)) :
    (sim.entities.inner[e.entity_key.id]? = none →
      Simulation.step_with resume sim = .error (.removedEntity e.entity_key)) ∧
    (sim.entities.inner[e.entity_key.id]? = some none →
      Simulation.step_with resume sim = .error (.removedEntity e.entity_key)) ∧
    (∀ (st : State V) (log : List L),
      Container.step_with sim.entities resume e.entity_key sim.state =
        .ok (.Complete st log) →
      Simulation.step_with resume sim =
        .ok (.Advance, ⟨sched, (sim.entities.remove e.entity_key).2, st⟩, log) ∧
      ((sim.entities.remove e.entity_key).2).get_state e.entity_key = none ∧
      ((sim.entities.remove e.entity_key).2).inner[e.entity_key.id]? = some none) ∧
    (∀ (c : Container G) (gen : G) (i : Nat), c.inner[i]? = some none →
      ((c.add_generator gen).2).inner[i]? = some none) := by
  refine ⟨?_, ?_, ?_, ?_⟩
  · intro hl
    refine step_with_resume_error hpop ?_
    unfold Container.step_with
    rw [hl]
  · intro hl
    refine step_with_resume_error hpop ?_
    unfold Container.step_with
    rw [hl]
  · intro st log hres
    obtain ⟨p, hl⟩ := container_step_ok_lookup hres
    refine ⟨step_with_complete hpop hres, get_state_remove_self _ _, ?_⟩
    unfold Container.remove
    rw [hl]
    show ((sim.entities.inner.set e.entity_key.id none))[e.entity_key.id]? = some none
    exact List.getElem?_set_self (lookup_lt_length hl)
  · intro c gen i hl
    show (c.inner ++ [some (gen, EntityState.Active)])[i]? = some none
    have hlt : i < c.inner.length := by
      rcases List.getElem?_eq_some.mp hl with ⟨hlt, -⟩
      exact hlt
    rw [List.getElem?_append_left hlt]
    exact hl

/-- Witness for C7: stepping the never-added handle 5 fails fatally. -/
theorem invalid_handle_step_witness :
    Simulation.step_with unitResume simC7 = .error (.removedEntity ⟨5⟩) :=
  (invalid_handle_step unitResume simC7 ⟨0, ⟨5⟩⟩ ⟨[], 0⟩ rfl).1 rfl

/-- C8: `run_with_limit` checks the limit only after a full step: a step that
returns `Advance` with the clock at or past the limit ends the loop with that
step's complete post-state; below the limit the loop recurses; `Break`
(returned exactly when the queue is empty) also ends the loop. -/
theorem run_with_limit_post_check {G V L : Type}
    (resume : G → State V → Except String (GenStep G V L))
    (fuel limit : Nat) (sim : Simulation G V) (acc : List L) :
    (∀ (sim' : Simulation G V) (log : List L),
      Simulation.step_with resume sim = .ok (.Break, sim', log) →
      Simulation.run_with_limit resume (fuel + 1) limit sim acc =
        .ok (some (sim', acc ++ log))) ∧
    (∀ (sim' : Simulation G V) (log : List L),
      Simulation.step_with resume sim = .ok (.Advance, sim', log) →
      limit ≤ sim'.scheduler.clock →
      Simulation.run_with_limit resume (fuel + 1) limit sim acc =
        .ok (some (sim', acc ++ log))) ∧
    (∀ (sim' : Simulation G V) (log : List L),
      Simulation.step_with resume sim = .ok (.Advance, sim', log) →
      sim'.scheduler.clock < limit →
      Simulation.run_with_limit resume (fuel + 1) limit sim acc =
        Simulation.run_with_limit resume fuel limit sim' (acc ++ log)) ∧
    (sim.scheduler.events = [] →
      Simulation.step_with resume sim = .ok (.Break, sim, [])) := by
  refine ⟨?_, ?_, ?_, ?_⟩
  · intro sim' log h
    rw [Simulation.run_with_limit, h]
  · intro sim' log h hle
    rw [Simulation.run_with_limit, h]
    simp only
    rw [if_pos hle]
  · intro sim' log h hlt
    rw [Simulation.run_with_limit, h]
    simp only
    rw [if_neg (Nat.not_le.mpr hlt)]
  · intro hempty
    unfold Simulation.step_with
    have hp : sim.scheduler.pop = none := by
      unfold Scheduler.pop
      rw [hempty]
      rfl
    rw [hp]

/-- Witness for C8: with limit 2, the event at time 2 of `simC4` is fully
executed (its `Hold 7` reschedule is applied) before the loop stops. -/
theorem run_with_limit_post_check_witness :
    Simulation.run_with_limit actionResume 1 2 simC4 [] =
      .ok (some (⟨⟨[⟨9, ⟨0⟩⟩], 2⟩, ⟨[some (.Hold 7, EntityState.Active)]⟩, ⟨[]⟩⟩, [])) :=
  (run_with_limit_post_check actionResume 0 2 simC4 []).2.1
    ⟨⟨[⟨9, ⟨0⟩⟩], 2⟩, ⟨[some (.Hold 7, EntityState.Active)]⟩, ⟨[]⟩⟩ [] rfl (Nat.le_refl 2)

/-- Evaluating `Scheduler::remove` when the handle is pending. -/
theorem remove_pending {s : Scheduler} {k : Key} {ev : EventEntry}
    (hev : ev ∈ s.events) (hk : ev.entity_key = k) :
    s.remove k = (true, ⟨s.events.filter (fun e2 => e2.entity_key ≠ k), s.clock⟩) := by
  unfold Scheduler.remove
  rw [if_pos ⟨ev, hev, hk⟩]

/-- Evaluating `Scheduler::remove` when the handle is not pending. -/
theorem remove_not_pending {s : Scheduler} {k : Key}
    (h : ∀ ev ∈ s.events, ev.entity_key ≠ k) :
    s.remove k = (false, s) := by
  unfold Scheduler.remove
  rw [if_neg]
  rintro ⟨ev, hev, hk⟩
  exact h ev hev hk

/-- Counterexample to C3 as stated: the popped task 0 is Active and yields
`Cancel 0`; the target (task 0 itself) has no pending entry at that moment
(the queue is empty after the pop), so the claim requires a fatal failure --
but the code first executes `schedule_now(key)` and only then
`scheduler.remove(other_key)`, so the removal finds the entry just added and
the step succeeds, leaving task 0 Passive and unscheduled. -/
theorem cancel_self_counterexample :
    simC3.scheduler.pop = some (⟨3, ⟨0⟩⟩, ⟨[], 3⟩) ∧
    Container.step_with simC3.entities actionResume ⟨0⟩ simC3.state =
      .ok (.Yielded (.Cancel ⟨0⟩) (.Cancel ⟨0⟩) ⟨[]⟩ []) ∧
    simC3.entities.get_state ⟨0⟩ = some EntityState.Active ∧
    Simulation.step_with actionResume simC3 =
      .ok (.Advance, ⟨⟨[], 3⟩, ⟨[some (.Cancel ⟨0⟩, EntityState.Passive)]⟩, ⟨[]⟩⟩, []) :=
  ⟨rfl, rfl, rfl, rfl⟩

set_option maxHeartbeats 1600000 in
/-- C3 (amended): when the popped task `T` (Active, not otherwise pending)
yields `Cancel U`: if `U ≠ T` is Active with a pending entry, `T` is
rescheduled at the current clock time, `U` is flipped to Passive and `U`'s
pending entries are all removed (no entry for `U` remains); if `U` is Passive
the run fails fatally; if `U ≠ T` is Active without a pending entry the run
fails fatally; in the self-cancel case `U = T` the run does not fail: `T`
ends up Passive with no pending entry. -/
theorem cancel_step {G V L : Type}
    (resume : G → State V → Except String (GenStep G V L))
    (sim : Simulation G V) (e : EventEntry) (sched : Scheduler) (u : Key)
    (g : G) (st : State V) (log : List L)
    (hpop : sim.scheduler.pop = some (e, sched))
    (hres : Container.step_with sim.entities resume e.entity_key sim.state =
      .ok (.Yielded (.Cancel u) g st log))
    (hT : sim.entities.get_state e.entity_key = some EntityState.Active)
    (hTnp : ∀ ev ∈ sched.events, ev.entity_key ≠ e.entity_key) :
    (u ≠ e.entity_key → sim.entities.get_state u = some EntityState.Active →
      (∃ ev ∈ sched.events, ev.entity_key = u) →
      ∃ sim' : Simulation G V,
        Simulation.step_with resume sim = .ok (.Advance, sim', log) ∧
        sim'.entities.get_state u = some EntityState.Passive ∧
        (⟨e.time, e.entity_key⟩ : EventEntry) ∈ sim'.scheduler.events ∧
        (∀ ev ∈ sim'.scheduler.events, ev.entity_key ≠ u) ∧
        sim'.scheduler.clock = e.time) ∧
    (sim.entities.get_state u = some EntityState.Passive →
      Simulation.step_with resume sim = .error (.cancelTargetPassive e.entity_key u)) ∧
    (u ≠ e.entity_key → sim.entities.get_state u = some EntityState.Active →
      (∀ ev ∈ sched.events, ev.entity_key ≠ u) →
      Simulation.step_with resume sim = .error (.cancelNotScheduled e.entity_key u)) ∧
    (u = e.entity_key →
      ∃ sim' : Simulation G V,
        Simulation.step_with resume sim = .ok (.Advance, sim', log) ∧
        sim'.entities.get_state u = some EntityState.Passive ∧
        (∀ ev ∈ sim'.scheduler.events, ev.entity_key ≠ u)) := by
  have hstep := step_with_yield hpop hres
  have hclock : sched.clock = e.time := (pop_spec hpop).2.1
  have hT1 : (sim.entities.setGen e.entity_key g).get_state e.entity_key =
      some EntityState.Active := by
    rw [get_state_setGen]; exact hT
  have hs1 : sched.schedule_now e.entity_key =
      ⟨sched.events ++ [⟨e.time, e.entity_key⟩], e.time⟩ := by
    rw [Scheduler.schedule_now, schedule_not_pending hTnp 0, hclock, Nat.add_zero]
  refine ⟨?_, ?_, ?_, ?_⟩
  · intro hne hU hpend
    have hU1 : (sim.entities.setGen e.entity_key g).get_state u =
        some EntityState.Active := by
      rw [get_state_setGen]; exact hU
    obtain ⟨ev0, hev0, hk0⟩ := hpend
    have hrem : (⟨sched.events ++ [⟨e.time, e.entity_key⟩], e.time⟩ : Scheduler).remove u =
        (true, Scheduler.mk ((sched.events ++ [EventEntry.mk e.time e.entity_key]).filter
          (fun e2 => e2.entity_key ≠ u)) e.time) :=
      remove_pending (List.mem_append.mpr (Or.inl hev0)) hk0
    rw [hstep, handleAction_cancel_active_target hT1 hU1]
    rw [hs1, hrem]
    refine ⟨⟨⟨(sched.events ++ [EventEntry.mk e.time e.entity_key]).filter
        (fun e2 => e2.entity_key ≠ u), e.time⟩,
      (sim.entities.setGen e.entity_key g).set_state u EntityState.Passive, st⟩,
      rfl, get_state_set_state_self hU1 EntityState.Passive, ?_, ?_, rfl⟩
    · rw [List.mem_filter]
      refine ⟨List.mem_append.mpr (Or.inr (List.mem_singleton_self _)), ?_⟩
      simp only [decide_eq_true_eq]
      exact fun hc => hne (hc.symm)
    · intro ev hev
      have := (List.mem_filter.mp hev).2
      simpa using this
  · intro hU
    have hU1 : (sim.entities.setGen e.entity_key g).get_state u =
        some EntityState.Passive := by
      rw [get_state_setGen]; exact hU
    rw [hstep, handleAction_cancel_passive_target hT1 hU1]
  · intro hne hU hnp
    have hU1 : (sim.entities.setGen e.entity_key g).get_state u =
        some EntityState.Active := by
      rw [get_state_setGen]; exact hU
    have hrem : (⟨sched.events ++ [⟨e.time, e.entity_key⟩], e.time⟩ : Scheduler).remove u =
        (false, Scheduler.mk (sched.events ++ [⟨e.time, e.entity_key⟩]) e.time) := by
      refine remove_not_pending ?_
      intro ev hev
      rcases List.mem_append.mp hev with hev | hev
      · exact hnp ev hev
      · rcases List.mem_singleton.mp hev with rfl
        exact fun hc => hne (hc.symm)
    rw [hstep, handleAction_cancel_active_target hT1 hU1, hs1, hrem]
  · intro heq
    subst heq
    have hrem : (⟨sched.events ++ [⟨e.time, e.entity_key⟩], e.time⟩ : Scheduler).remove
        e.entity_key =
        (true, Scheduler.mk ((sched.events ++ [EventEntry.mk e.time e.entity_key]).filter
          (fun e2 => e2.entity_key ≠ e.entity_key)) e.time) :=
      remove_pending (List.mem_append.mpr (Or.inr (List.mem_singleton_self _))) rfl
    rw [hstep, handleAction_cancel_active_target hT1 hT1, hs1, hrem]
    refine ⟨⟨⟨(sched.events ++ [EventEntry.mk e.time e.entity_key]).filter
        (fun e2 => e2.entity_key ≠ e.entity_key), e.time⟩,
      (sim.entities.setGen e.entity_key g).set_state e.entity_key EntityState.Passive, st⟩,
      rfl, get_state_set_state_self hT1 EntityState.Passive, ?_⟩
    intro ev hev
    have := (List.mem_filter.mp hev).2
    simpa using this

/-- Witness for C3 (amended): cancelling the Passive task 1 fails fatally. -/
theorem cancel_step_witness :
    Simulation.step_with actionResume simC3w =
      .error (.cancelTargetPassive ⟨0⟩ ⟨1⟩) :=
  (cancel_step actionResume simC3w ⟨0, ⟨0⟩⟩ ⟨[], 0⟩ ⟨1⟩ (.Cancel ⟨1⟩) ⟨[]⟩ []
    rfl rfl rfl (fun ev hev => absurd hev (List.not_mem_nil ev))).2.1 rfl

/-- Distinct keys have distinct ids. -/
theorem key_ne_of_ne {a b : Key} (h : a ≠ b) : a.id ≠ b.id := by
  intro hid
  apply h
  cases a
  cases b
  cases hid
  rfl

/-- `schedule` of an Active entity preserves the invariant. -/
theorem pendInv_schedule {G : Type} {sched : Scheduler} {c : Container G} {k : Key}
    (h : PendInv sched c) (hk : c.get_state k = some EntityState.Active) (t : Nat) :
    PendInv (sched.schedule t k) c := by
  obtain ⟨hnd, hact⟩ := h
  unfold Scheduler.schedule
  split
  · exact ⟨hnd, hact⟩
  · rename_i hnp
    constructor
    · unfold Scheduler.keys
      rw [List.map_append]
      simp only [List.map_cons, List.map_nil]
      rw [List.nodup_append]
      refine ⟨hnd, List.nodup_singleton k, ?_⟩
      intro x hx hk2
      rcases List.mem_singleton.mp hk2 with rfl
      rcases List.mem_map.mp hx with ⟨ev, hev, hevk⟩
      exact hnp ⟨ev, hev, hevk⟩
    · intro ev hev
      rcases List.mem_append.mp hev with hev | hev
      · exact hact ev hev
      · rcases List.mem_singleton.mp hev with rfl
        exact hk

/-- Under the invariant, a Passive entity has no pending entry. -/
theorem not_pending_of_passive {G : Type} {sched : Scheduler} {c : Container G} {u : Key}
    (h : PendInv sched c) (hu : c.get_state u = some EntityState.Passive) :
    ∀ ev ∈ sched.events, ev.entity_key ≠ u := by
  intro ev hev hk
  have := h.2 ev hev
  rw [hk, hu] at this
  simp at this

/-- Setting a live entity's flag to Active preserves the invariant. -/
theorem pendInv_set_active {G : Type} {sched : Scheduler} {c : Container G} {u : Key}
    {st0 : EntityState} (h : PendInv sched c) (hu : c.get_state u = some st0) :
    PendInv sched (c.set_state u EntityState.Active) := by
  refine ⟨h.1, ?_⟩
  intro ev hev
  by_cases hne : u.id = ev.entity_key.id
  · have : (c.set_state u EntityState.Active).get_state u = some EntityState.Active :=
      get_state_set_state_self hu EntityState.Active
    unfold Container.get_state at this ⊢
    rw [← hne]
    rw [← hne] at *
    exact this
  · rw [get_state_set_state_ne c hne]
    exact h.2 ev hev

/-- Setting the flag of a non-pending entity preserves the invariant. -/
theorem pendInv_set_not_pending {G : Type} {sched : Scheduler} {c : Container G} {u : Key}
    (h : PendInv sched c) (hu : ∀ ev ∈ sched.events, ev.entity_key ≠ u)
    (st : EntityState) : PendInv sched (c.set_state u st) := by
  refine ⟨h.1, ?_⟩
  intro ev hev
  rw [get_state_set_state_ne c (key_ne_of_ne (Ne.symm (hu ev hev))) st]
  exact h.2 ev hev

/-- Storing a resumed generator back preserves the invariant. -/
theorem pendInv_setGen {G : Type} {sched : Scheduler} {c : Container G}
    (h : PendInv sched c) (key : Key) (g : G) : PendInv sched (c.setGen key g) := by
  refine ⟨h.1, ?_⟩
  intro ev hev
  rw [get_state_setGen]
  exact h.2 ev hev

/-- `Scheduler::remove` preserves the invariant. -/
theorem pendInv_sched_remove {G : Type} {sched : Scheduler} {c : Container G}
    (h : PendInv sched c) (u : Key) : PendInv (sched.remove u).2 c := by
  unfold Scheduler.remove
  split
  · refine ⟨?_, ?_⟩
    · exact ((List.filter_sublist sched.events).map EventEntry.entity_key).nodup h.1
    · intro ev hev
      exact h.2 ev (List.mem_of_mem_filter hev)
  · exact h

/-- Emptying the slot of a non-pending entity preserves the invariant. -/
theorem pendInv_container_remove {G : Type} {sched : Scheduler} {c : Container G} {key : Key}
    (h : PendInv sched c) (hk : ∀ ev ∈ sched.events, ev.entity_key ≠ key) :
    PendInv sched ((c.remove key).2) := by
  refine ⟨h.1, ?_⟩
  intro ev hev
  rw [get_state_remove_ne c (key_ne_of_ne (Ne.symm (hk ev hev)))]
  exact h.2 ev hev

/-- Popping preserves the invariant; the popped handle is no longer pending
and was Active. -/
theorem pendInv_pop {G : Type} {sched : Scheduler} {c : Container G}
    {e : EventEntry} {sched' : Scheduler}
    (h : PendInv sched c) (hp : sched.pop = some (e, sched')) :
    PendInv sched' c ∧ (∀ ev ∈ sched'.events, ev.entity_key ≠ e.entity_key) ∧
      c.get_state e.entity_key = some EntityState.Active := by
  obtain ⟨hperm, -, -⟩ := pop_spec hp
  have hmem : e ∈ sched.events := hperm.mem_iff.mpr (List.mem_cons_self e _)
  have hmap : List.Perm sched.keys (e.entity_key :: sched'.keys) :=
    hperm.map EventEntry.entity_key
  have hnd : (e.entity_key :: sched'.keys).Nodup := hmap.nodup_iff.mp h.1
  refine ⟨⟨hnd.of_cons, ?_⟩, ?_, h.2 e hmem⟩
  · intro ev hev
    exact h.2 ev (hperm.mem_iff.mpr (List.mem_cons_of_mem _ hev))
  · intro ev hev hk
    exact (List.nodup_cons.mp hnd).1 (hk ▸ List.mem_map_of_mem EventEntry.entity_key hev)

/-- `ActivateOne` on a missing target panics at the target unwrap. -/
theorem handleAction_activateOne_missing {G V : Type} {sim : Simulation G V} {key u : Key}
    (hA : sim.entities.get_state key = some EntityState.Active)
    (hU : sim.entities.get_state u = none) :
    sim.handleAction key (.ActivateOne u) = .error (.activateTargetMissing key u) := by
  simp only [Simulation.handleAction]
  rw [hA]
  simp only
  rw [hU]
  simp

/-- `Cancel` on a missing target panics at the target unwrap. -/
theorem handleAction_cancel_missing {G V : Type} {sim : Simulation G V} {key u : Key}
    (hA : sim.entities.get_state key = some EntityState.Active)
    (hU : sim.entities.get_state u = none) :
    sim.handleAction key (.Cancel u) = .error (.cancelTargetMissing key u) := by
  simp only [Simulation.handleAction]
  rw [hA]
  simp only
  rw [hU]
  simp

/-- The `ActivateMany` arm reduces to the target loop after rescheduling the
actor. -/
theorem handleAction_activateMany {G V : Type} {sim : Simulation G V} {key : Key}
    (hA : sim.entities.get_state key = some EntityState.Active) (us : List Key) :
    sim.handleAction key (.ActivateMany us) =
      Simulation.activateLoop
        ⟨sim.scheduler.schedule_now key, sim.entities, sim.state⟩ key us := by
  simp only [Simulation.handleAction]
  rw [hA]
  simp

/-- One `ActivateMany` iteration on a missing target. -/
theorem activateLoop_cons_missing {G V : Type} {sim : Simulation G V} {key u : Key}
    {rest : List Key} (hU : sim.entities.get_state u = none) :
    Simulation.activateLoop sim key (u :: rest) =
      .error (.activateTargetMissing key u) := by
  rw [Simulation.activateLoop, hU]

/-- One `ActivateMany` iteration on an already-Active target. -/
theorem activateLoop_cons_active {G V : Type} {sim : Simulation G V} {key u : Key}
    {rest : List Key} (hU : sim.entities.get_state u = some EntityState.Active) :
    Simulation.activateLoop sim key (u :: rest) =
      .error (.activateAlreadyActive key u) := by
  rw [Simulation.activateLoop, hU]

/-- One `ActivateMany` iteration on a Passive target. -/
theorem activateLoop_cons_passive {G V : Type} {sim : Simulation G V} {key u : Key}
    {rest : List Key} (hU : sim.entities.get_state u = some EntityState.Passive) :
    Simulation.activateLoop sim key (u :: rest) =
      Simulation.activateLoop
        ⟨sim.scheduler.schedule_now u, sim.entities.set_state u EntityState.Active,
          sim.state⟩ key rest := by
  rw [Simulation.activateLoop, hU]

/-- After `Scheduler::remove u`, every remaining entry was already pending
and is not `u`'s. -/
theorem remove_events_ne {s : Scheduler} {u : Key} :
    ∀ ev ∈ (s.remove u).2.events, ev ∈ s.events ∧ ev.entity_key ≠ u := by
  intro ev hev
  unfold Scheduler.remove at hev
  split at hev
  · have := List.mem_filter.mp hev
    refine ⟨this.1, by simpa using this.2⟩
  · rename_i hnp
    exact ⟨hev, fun hk => hnp ⟨ev, hev, hk⟩⟩

/-- The `ActivateMany` loop preserves the invariant, and the only panics it
raises are not of the Passive-actor kind. -/
theorem activateLoop_inv {G V : Type} {key : Key} :
    ∀ (us : List Key) (sim : Simulation G V),
      PendInv sim.scheduler sim.entities →
      ((∀ sim2 : Simulation G V, Simulation.activateLoop sim key us = .ok sim2 →
        PendInv sim2.scheduler sim2.entities) ∧
       (∀ err : SimError, Simulation.activateLoop sim key us = .error err →
        err.isPassiveViolation = false)) := by
  intro us
  induction us with
  | nil =>
    intro sim h
    constructor
    · intro sim2 h2
      rw [Simulation.activateLoop] at h2
      cases h2
      exact h
    · intro err h2
      rw [Simulation.activateLoop] at h2
      exact absurd h2 (by simp)
  | cons u rest ih =>
    intro sim h
    cases hU : sim.entities.get_state u with
    | none =>
      constructor
      · intro sim2 h2
        rw [activateLoop_cons_missing hU] at h2
        exact absurd h2 (by simp)
      · intro err h2
        rw [activateLoop_cons_missing hU] at h2
        cases h2
        rfl
    | some st =>
      cases st with
      | Active =>
        constructor
        · intro sim2 h2
          rw [activateLoop_cons_active hU] at h2
          exact absurd h2 (by simp)
        · intro err h2
          rw [activateLoop_cons_active hU] at h2
          cases h2
          rfl
      | Passive =>
        have h1 : PendInv sim.scheduler (sim.entities.set_state u EntityState.Active) :=
          pendInv_set_active h hU
        have h2 : (sim.entities.set_state u EntityState.Active).get_state u =
            some EntityState.Active := get_state_set_state_self hU EntityState.Active
        have hrec := ih ⟨sim.scheduler.schedule_now u,
          sim.entities.set_state u EntityState.Active, sim.state⟩
          (pendInv_schedule h1 h2 0)
        constructor
        · intro sim2 hh
          rw [activateLoop_cons_passive hU] at hh
          exact hrec.1 sim2 hh
        · intro err hh
          rw [activateLoop_cons_passive hU] at hh
          exact hrec.2 err hh

/-- Applying the action of an Active, no-longer-pending actor preserves the
invariant, and any panic raised is not of the Passive-actor kind. -/
theorem handleAction_inv {G V : Type} {sim : Simulation G V} {key : Key} (a : Action)
    (h : PendInv sim.scheduler sim.entities)
    (hkey : sim.entities.get_state key = some EntityState.Active)
    (hknp : ∀ ev ∈ sim.scheduler.events, ev.entity_key ≠ key) :
    (∀ sim2 : Simulation G V, sim.handleAction key a = .ok sim2 →
      PendInv sim2.scheduler sim2.entities) ∧
    (∀ err : SimError, sim.handleAction key a = .error err →
      err.isPassiveViolation = false) := by
  cases a with
  | Hold d =>
    constructor
    · intro sim2 h2
      rw [handleAction_hold_active hkey d] at h2
      cases h2
      exact pendInv_schedule h hkey d
    · intro err h2
      rw [handleAction_hold_active hkey d] at h2
      exact absurd h2 (by simp)
  | Passivate =>
    constructor
    · intro sim2 h2
      rw [handleAction_passivate_active hkey] at h2
      cases h2
      exact pendInv_set_not_pending h hknp EntityState.Passive
    · intro err h2
      rw [handleAction_passivate_active hkey] at h2
      exact absurd h2 (by simp)
  | ActivateOne u =>
    cases hU : sim.entities.get_state u with
    | none =>
      constructor
      · intro sim2 h2
        rw [handleAction_activateOne_missing hkey hU] at h2
        exact absurd h2 (by simp)
      · intro err h2
        rw [handleAction_activateOne_missing hkey hU] at h2
        cases h2
        rfl
    | some st =>
      cases st with
      | Active =>
        constructor
        · intro sim2 h2
          rw [handleAction_activateOne_active_target hkey hU] at h2
          exact absurd h2 (by simp)
        · intro err h2
          rw [handleAction_activateOne_active_target hkey hU] at h2
          cases h2
          rfl
      | Passive =>
        constructor
        · intro sim2 h2
          rw [handleAction_activateOne_passive_target hkey hU] at h2
          cases h2
          have h1 := pendInv_schedule h hkey 0
          have h2 := pendInv_set_active h1 hU
          exact pendInv_schedule h2 (get_state_set_state_self hU EntityState.Active) 0
        · intro err h2
          rw [handleAction_activateOne_passive_target hkey hU] at h2
          exact absurd h2 (by simp)
  | ActivateMany us =>
    rw [handleAction_activateMany hkey us]
    exact activateLoop_inv us ⟨sim.scheduler.schedule_now key, sim.entities, sim.state⟩
      (pendInv_schedule h hkey 0)
  | Cancel u =>
    cases hU : sim.entities.get_state u with
    | none =>
      constructor
      · intro sim2 h2
        rw [handleAction_cancel_missing hkey hU] at h2
        exact absurd h2 (by simp)
      · intro err h2
        rw [handleAction_cancel_missing hkey hU] at h2
        cases h2
        rfl
    | some st =>
      cases st with
      | Passive =>
        constructor
        · intro sim2 h2
          rw [handleAction_cancel_passive_target hkey hU] at h2
          exact absurd h2 (by simp)
        · intro err h2
          rw [handleAction_cancel_passive_target hkey hU] at h2
          cases h2
          rfl
      | Active =>
        have h1 := pendInv_schedule h hkey 0
        constructor
        · intro sim2 h2
          rw [handleAction_cancel_active_target hkey hU] at h2
          cases hrem : (sim.scheduler.schedule_now key).remove u with
          | mk b sched' =>
            rw [hrem] at h2
            cases b with
            | false => exact absurd h2 (by simp)
            | true =>
              cases h2
              have hsnd : sched' = ((sim.scheduler.schedule_now key).remove u).2 := by
                rw [hrem]
              constructor
              · rw [hsnd]
                exact keysNodup_remove h1.1 u
              · intro ev hev
                rw [hsnd] at hev
                obtain ⟨hev2, hne⟩ := remove_events_ne ev hev
                rw [get_state_set_state_ne sim.entities
                  (key_ne_of_ne (Ne.symm hne)) EntityState.Passive]
                exact h1.2 ev hev2
        · intro err h2
          rw [handleAction_cancel_active_target hkey hU] at h2
          cases hrem : (sim.scheduler.schedule_now key).remove u with
          | mk b sched' =>
            rw [hrem] at h2
            cases b with
            | true => exact absurd h2 (by simp)
            | false =>
              cases h2
              rfl

/-- A step on an empty queue is a `Break` leaving the state untouched. -/
theorem step_with_none {G V L : Type}
    {resume : G → State V → Except String (GenStep G V L)} {sim : Simulation G V}
    (hp : sim.scheduler.pop = none) :
    Simulation.step_with resume sim = .ok (.Break, sim, []) := by
  unfold Simulation.step_with
  rw [hp]

/-- The registry's own panics (empty slot, generator panic) are never of the
Passive-actor kind. -/
theorem container_step_error {G V L : Type} {c : Container G}
    {resume : G → State V → Except String (GenStep G V L)} {key : Key}
    {st : State V} {err : SimError}
    (h : Container.step_with c resume key st = .error err) :
    err.isPassiveViolation = false := by
  unfold Container.step_with at h
  split at h
  · split at h
    · exact absurd h (by simp)
    · cases h
      rfl
  · cases h
    rfl

/-- One orchestrator step preserves the invariant, and any panic it raises
is not of the Passive-actor kind. -/
theorem step_with_inv {G V L : Type}
    {resume : G → State V → Except String (GenStep G V L)} {sim : Simulation G V}
    (h : PendInv sim.scheduler sim.entities) :
    (∀ (c : ShouldContinue) (sim' : Simulation G V) (log : List L),
      Simulation.step_with resume sim = .ok (c, sim', log) →
      PendInv sim'.scheduler sim'.entities) ∧
    (∀ err : SimError, Simulation.step_with resume sim = .error err →
      err.isPassiveViolation = false) := by
  cases hp : sim.scheduler.pop with
  | none =>
    constructor
    · intro c sim' log h2
      rw [step_with_none hp] at h2
      cases h2
      exact h
    · intro err h2
      rw [step_with_none hp] at h2
      exact absurd h2 (by simp)
  | some p =>
    obtain ⟨e, sched⟩ := p
    obtain ⟨hInv', hknp, hkey⟩ := pendInv_pop h hp
    cases hres : Container.step_with sim.entities resume e.entity_key sim.state with
    | error err0 =>
      constructor
      · intro c sim' log h2
        rw [step_with_resume_error hp hres] at h2
        exact absurd h2 (by simp)
      · intro err h2
        rw [step_with_resume_error hp hres] at h2
        cases h2
        exact container_step_error hres
    | ok r =>
      cases r with
      | Complete st log0 =>
        constructor
        · intro c sim' log h2
          rw [step_with_complete hp hres] at h2
          cases h2
          exact pendInv_container_remove hInv' hknp
        · intro err h2
          rw [step_with_complete hp hres] at h2
          exact absurd h2 (by simp)
      | Yielded a g st log0 =>
        have hstep := step_with_yield hp hres
        have hInv1 : PendInv sched (sim.entities.setGen e.entity_key g) :=
          pendInv_setGen hInv' e.entity_key g
        have hkey1 : (sim.entities.setGen e.entity_key g).get_state e.entity_key =
            some EntityState.Active := by
          rw [get_state_setGen]; exact hkey
        have hha := @handleAction_inv G V ⟨sched, sim.entities.setGen e.entity_key g, st⟩
          e.entity_key a hInv1 hkey1 hknp
        cases hha2 : Simulation.handleAction
            ⟨sched, sim.entities.setGen e.entity_key g, st⟩ e.entity_key a with
        | ok sim2 =>
          constructor
          · intro c sim' log h2
            rw [hstep, hha2] at h2
            cases h2
            exact hha.1 sim2 hha2
          · intro err h2
            rw [hstep, hha2] at h2
            exact absurd h2 (by simp)
        | error err0 =>
          constructor
          · intro c sim' log h2
            rw [hstep, hha2] at h2
            exact absurd h2 (by simp)
          · intro err h2
            rw [hstep, hha2] at h2
            cases h2
            exact hha.2 err0 hha2

/-- C10: provided external `schedule`/`schedule_now` calls are made only for
Active entities, every pending handle refers to a live Active entity: the
invariant holds for the fresh simulation, is preserved by `add_generator`
(which registers the entity as Active), by scheduling an Active entity, and
by every successful `step_with`; under it every pending handle is Active, so
a Passive entity is never popped and the four panic branches guarded by
`if let EntityState::Passive = *entity_state` (a Passive task yielding Hold,
Passivate, Activate or Cancel) are unreachable. -/
theorem pending_implies_active_invariant {G V L : Type}
    (resume : G → State V → Except String (GenStep G V L)) :
    PendInv (Simulation.default G V).scheduler (Simulation.default G V).entities ∧
    (∀ (sim : Simulation G V) (g : G), PendInv sim.scheduler sim.entities →
      PendInv (sim.add_generator g).2.scheduler (sim.add_generator g).2.entities) ∧
    (∀ (sim : Simulation G V) (t : Nat) (k : Key), PendInv sim.scheduler sim.entities →
      sim.entities.get_state k = some EntityState.Active →
      PendInv (sim.schedule t k).scheduler (sim.schedule t k).entities) ∧
    (∀ sim : Simulation G V, PendInv sim.scheduler sim.entities →
      ∀ ev ∈ sim.scheduler.events,
        sim.entities.get_state ev.entity_key = some EntityState.Active) ∧
    (∀ (sim : Simulation G V) (c : ShouldContinue) (sim' : Simulation G V) (log : List L),
      PendInv sim.scheduler sim.entities →
      Simulation.step_with resume sim = .ok (c, sim', log) →
      PendInv sim'.scheduler sim'.entities) ∧
    (∀ (sim : Simulation G V) (err : SimError), PendInv sim.scheduler sim.entities →
      Simulation.step_with resume sim = .error err →
      err.isPassiveViolation = false) := by
  refine ⟨?_, ?_, ?_, fun sim h => h.2,
    fun sim c sim' log h h2 => (step_with_inv h).1 c sim' log h2,
    fun sim err h h2 => (step_with_inv h).2 err h2⟩
  · exact ⟨List.nodup_nil, fun ev hev => absurd hev (List.not_mem_nil ev)⟩
  · intro sim g h
    refine ⟨h.1, ?_⟩
    intro ev hev
    show ((sim.entities.add_generator g).2).get_state ev.entity_key = _
    exact get_state_add (h.2 ev hev) g
  · intro sim t k h hk
    exact pendInv_schedule h hk t

/-- Witness for C10: the invariant holds concretely for `simC4` and is
carried through one step. -/
theorem pending_implies_active_invariant_witness :
    PendInv simC4.scheduler simC4.entities ∧
    PendInv (⟨[⟨9, ⟨0⟩⟩], 2⟩ : Scheduler)
      (⟨[some (.Hold 7, EntityState.Active)]⟩ : Container Action) :=
  have hInv : PendInv simC4.scheduler simC4.entities := ⟨by decide, by decide⟩
  ⟨hInv, (pending_implies_active_invariant actionResume).2.2.2.2.1 simC4 .Advance
    ⟨⟨[⟨9, ⟨0⟩⟩], 2⟩, ⟨[some (.Hold 7, EntityState.Active)]⟩, ⟨[]⟩⟩ [] hInv rfl⟩

/-- Witness for C6: the round-trip at a concrete store. -/
theorem state_store_roundtrip_witness :
    ((⟨[some 5]⟩ : State Nat).insert 7).2.get ((⟨[some 5]⟩ : State Nat).insert 7).1 =
      some 7 ∧
    ((0 : Nat) < 1 ∧ ((⟨[some 5]⟩ : State Nat).insert 7).1 ≠ ⟨0⟩) :=
  ⟨(state_store_roundtrip ⟨[some 5]⟩ 7).1,
    Nat.zero_lt_one,
    (state_store_roundtrip ⟨[some 5]⟩ 7).2.2.2.2.2.2 ⟨0⟩ Nat.zero_lt_one⟩

end RustSim

